import Mathlib

/-!
Verification development for the `energosbyt_plus` integration
(`custom_components/energosbyt_plus`): a shallow embedding in Lean 4 of the
API client (`api.py`), the auth-retry wrapper (`_util.py`), the refresh
coalescer (`sensor.py`) and the update orchestrator (`_base.py`), together
with theorems settling the specification claims about them.

Modelling conventions:
* Python `float` values are modelled as `Rat` (all monetary / indication
  arithmetic in the source is addition, negation and comparison of decimal
  values, which is exact).
* Python exceptions are modelled by the inductive `PyErr`; fallible code
  returns `Except PyErr α`.  The `EnergosbytPlusException` class hierarchy of
  `api.py` is mirrored by the constructors flagged by
  `PyErr.isEnergosbytPlusException`.
* JSON documents are modelled by the inductive `Json`; decoder functions are
  translated statement-by-statement from the `de_json` classmethods.
* The `api` back-reference field carried by every decoded record (a pointer
  to the client object) and the mutually-referential
  `Account.residential_object` pointer are omitted from the records: they are
  object-identity plumbing, not decoded data.
-/

/-- Python exception taxonomy of the integration.  `espException`,
`objectMissingData`, `methodRequiresAPI` and `unauthenticated` mirror the
`EnergosbytPlusException` class hierarchy declared at the top of `api.py`;
`keyError`, `valueError`, `typeError` and `assertionError` are the Python
built-in exceptions raised by decoding code; `externalError` stands for any
exception raised outside the client library (e.g. `aiohttp` errors). -/
inductive PyErr where
  | keyError (key : String)
  | valueError
  | typeError
  | assertionError (msg : String)
  | espException (msg : String)
  | objectMissingData (msg : String)
  | methodRequiresAPI (msg : String)
  | unauthenticated (msg : String)
  | externalError
  deriving Repr, DecidableEq

/-- Membership in the `EnergosbytPlusException` hierarchy: the base class and
all of its subclasses (`ObjectMissingData`, `MethodRequiresAPI`,
`UnauthenticatedException`) declared in `api.py`. -/
def PyErr.isEnergosbytPlusException : PyErr → Bool
  | .espException _ => true
  | .objectMissingData _ => true
  | .methodRequiresAPI _ => true
  | .unauthenticated _ => true
  | _ => false

/-- An authentication-class failure in the taxonomy: only
`UnauthenticatedException` marks a request as failing for authentication
reasons. -/
def PyErr.isAuthClass : PyErr → Bool
  | .unauthenticated _ => true
  | _ => false

/-- Python `datetime.date`:  a year/month/day triple.  Values are only ever
constructed through `pyDate`, which performs the constructor's validation. -/
structure PyDate where
  year : Int
  month : Int
  day : Int
  deriving Repr, DecidableEq

/-- Gregorian leap-year rule used by `datetime.date`. -/
def isLeapYear (y : Int) : Bool :=
  y % 4 = 0 && (y % 100 ≠ 0 || y % 400 = 0)

/-- Number of days in a month, as validated by the `datetime.date`
constructor. -/
def daysInMonth (y m : Int) : Int :=
  if m = 2 then (if isLeapYear y then 29 else 28)
  else if m = 4 ∨ m = 6 ∨ m = 9 ∨ m = 11 then 30
  else 31

/-- The `datetime.date(year, month, day)` constructor: raises `ValueError`
unless `1 ≤ year ≤ 9999`, `1 ≤ month ≤ 12` and `1 ≤ day ≤ daysInMonth`. -/
def pyDate (y m d : Int) : Except PyErr PyDate :=
  if 1 ≤ y ∧ y ≤ 9999 ∧ 1 ≤ m ∧ m ≤ 12 ∧ 1 ≤ d ∧ d ≤ daysInMonth y m then
    .ok ⟨y, m, d⟩
  else
    .error .valueError

/-- Characters of a string with leading and trailing whitespace removed
(Python `str.strip()` with no argument). -/
def trimChars (cs : List Char) : List Char :=
  ((cs.dropWhile Char.isWhitespace).reverse.dropWhile Char.isWhitespace).reverse

/-- Python `str.strip()`. -/
def pyStrip (s : String) : String :=
  String.mk (trimChars s.data)

/-- Split a character list at every occurrence of the separator character
(`acc` holds the reversed current chunk). -/
def splitOnCharAux (c : Char) : List Char → List Char → List (List Char)
  | [], acc => [acc.reverse]
  | x :: xs, acc =>
    if x = c then acc.reverse :: splitOnCharAux c xs []
    else splitOnCharAux c xs (x :: acc)

/-- Python `str.split(sep)` for a single-character separator (every
separator used by the source — `" "`, `"."` — is one character). -/
def pySplit (s : String) (c : Char) : List String :=
  (splitOnCharAux c s.data []).map String.mk

/-- Whether the string starts with a minus sign. -/
def startsWithDash (s : String) : Bool :=
  match s.data with
  | '-' :: _ => true
  | _ => false

/-- Interpret a list of characters as a base-10 numeral (all characters must
be digits). -/
def digitsToNat : List Char → Option Nat
  | [] => none
  | cs =>
    if cs.all Char.isDigit then
      some (cs.foldl (fun a c => a * 10 + (c.toNat - 48)) 0)
    else
      none

/-- Python `int(s)` on a string: optional sign followed by digits
(whitespace trimmed); raises `ValueError` otherwise. -/
def pyIntOfString (s : String) : Except PyErr Int :=
  let t := pyStrip s
  if startsWithDash t then
    match digitsToNat t.data.tail with
    | some n => .ok (-(n : Int))
    | none => .error .valueError
  else
    match digitsToNat t.data with
    | some n => .ok (n : Int)
    | none => .error .valueError

/-- Python `float(s)` on a string: optional sign, integer part, optional
fractional part; raises `ValueError` otherwise. -/
def pyFloatOfString (s : String) : Except PyErr Rat :=
  let t := pyStrip s
  let (sign, body) : Rat × String :=
    if startsWithDash t then (-1, String.mk t.data.tail) else (1, t)
  match pySplit body '.' with
  | [ip] =>
    match digitsToNat ip.data with
    | some n => .ok (sign * (n : Rat))
    | none => .error .valueError
  | [ip, fp] =>
    match digitsToNat ip.data, digitsToNat fp.data with
    | some n, some f => .ok (sign * ((n : Rat) + (f : Rat) / ((10 : Rat) ^ fp.length)))
    | _, _ => .error .valueError
  | _ => .error .valueError

/-- Truncation of a rational toward zero, as Python `int(float)` does. -/
def truncRat (q : Rat) : Int :=
  if q < 0 then -((-q).floor) else q.floor

/-- JSON values: the upstream documents consumed by the decoders. -/
inductive Json where
  | null
  | bool (b : Bool)
  | num (q : Rat)
  | str (s : String)
  | arr (items : List Json)
  | obj (fields : List (String × Json))
  deriving Repr, Inhabited

/-- Python `data[key]` on a decoded JSON mapping: `KeyError` when the key is
absent, `TypeError` when the value is not a mapping. -/
def Json.getKey : Json → String → Except PyErr Json
  | .obj fields, k =>
    match fields.lookup k with
    | some v => .ok v
    | none => .error (.keyError k)
  | _, _ => .error .typeError

/-- Python `float(x)` on a JSON value. -/
def pyFloat : Json → Except PyErr Rat
  | .num q => .ok q
  | .bool b => .ok (if b then 1 else 0)
  | .str s => pyFloatOfString s
  | _ => .error .typeError

/-- Python `int(x)` on a JSON value. -/
def pyInt : Json → Except PyErr Int
  | .num q => .ok (truncRat q)
  | .bool b => .ok (if b then 1 else 0)
  | .str s => pyIntOfString s
  | _ => .error .typeError

/-- Use of a JSON value where the decoders store a string field verbatim. -/
def asStr : Json → Except PyErr String
  | .str s => .ok s
  | _ => .error .typeError

/-- Use of a JSON value where the decoders store a boolean field verbatim. -/
def asBool : Json → Except PyErr Bool
  | .bool b => .ok b
  | _ => .error .typeError

/-- `dash_or_converter` from `api.py`: if the trimmed raw string equals
`"-"` the result is `None`; otherwise the converter is applied.  A non-string
input makes `input_str.strip()` raise (`AttributeError`, modelled as
`typeError`). -/
def dash_or_converter (j : Json) (conv : String → Except PyErr β) :
    Except PyErr (Option β) :=
  match j with
  | .str s => if pyStrip s = "-" then .ok none else (conv s).map some
  | _ => .error .typeError

/-- Python `s.partition(sep)` for a single-character separator: the part
before the first occurrence of the separator, the separator, and the part
after. -/
def pyPartition (s : String) (sep : Char) : String × String × String :=
  match pySplit s sep with
  | [] => (s, "", "")
  | [x] => (x, "", "")
  | x :: rest =>
    (x, Char.toString sep, String.intercalate (Char.toString sep) rest)

/-- Python `tuple.index(x)`: the 0-based index of the first occurrence, a
`ValueError` when the element is absent. -/
def tupleIndex : List String → String → Except PyErr Nat
  | [], _ => .error .valueError
  | y :: ys, x => if y = x then .ok 0 else (tupleIndex ys x).map (· + 1)

/-- `_CAPITAL_MONTH_NAMES` from `api.py`: the fixed 12-entry Russian
month-name table. -/
def capitalMonthNames : List String :=
  ["Январь", "Февраль", "Март", "Апрель", "Май", "Июнь",
   "Июль", "Август", "Сентябрь", "Октябрь", "Ноябрь", "Декабрь"]

/-- `convert_date` from `api.py`: `datetime.strptime(s, "%d.%m.%Y").date()`. -/
def convert_date (s : String) : Except PyErr PyDate :=
  match pySplit s '.' with
  | [d, m, y] => do
    let dd ← pyIntOfString d
    let mm ← pyIntOfString m
    let yy ← pyIntOfString y
    pyDate yy mm dd
  | _ => .error .valueError

/-- Sequential effectful map over a list, mirroring Python's evaluation of a
generator drained by `tuple(...)`: elements are produced left to right and
the first exception propagates. -/
def mapExcept (f : α → Except PyErr β) : List α → Except PyErr (List β)
  | [] => .ok []
  | x :: xs => do
    let y ← f x
    let ys ← mapExcept f xs
    pure (y :: ys)

/-- The dynamically-keyed zone identifiers `t1 .. tN` produced by
`map("t%s".__mod__, range(1, int(data["zoning"]) + 1))`. -/
def zoneIndexIds (n : Int) : List String :=
  (List.range' 1 n.toNat).map (fun i => "t" ++ toString i)

/-- The `Service` record of `api.py`. -/
structure Service where
  id : String
  code : String
  name : String
  deriving Repr, DecidableEq

/-- `Service.de_json` from `api.py`. -/
def Service.de_json (data : Json) : Except PyErr Service := do
  let id ← asStr (← data.getKey "id")
  let code ← asStr (← data.getKey "code")
  let name ← asStr (← data.getKey "name")
  pure { id, code, name }

/-- The `MeterZone` record of `api.py`. -/
structure MeterZone where
  id : String
  accepted : Option Rat
  last_submitted : Option Rat
  submitted : Option Rat
  accepted_date : Option PyDate
  accepted_period : Option PyDate
  last_submitted_date : Option PyDate
  deriving Repr, DecidableEq

/-- The `accepted` block handling of `Meter.de_json`: for a non-null block,
`accepted_date = convert_date(accepted["date"])` and `accepted_period` is
built from `accepted["period"].partition(" ")` with
`month=_CAPITAL_MONTH_NAMES.index(period_month_name)` — note the 0-based
index — and `day=1`.  Returns the raw block together with both dates, or
`none` for a null block. -/
def decodeAcceptedInfo : Json → Except PyErr (Option (Json × PyDate × PyDate))
  | .null => .ok none
  | a => do
    let accepted_date ← convert_date (← asStr (← a.getKey "date"))
    let periodStr ← asStr (← a.getKey "period")
    let (period_month_name, _, period_year) := pyPartition periodStr ' '
    let y ← pyIntOfString period_year
    let idx ← tupleIndex capitalMonthNames period_month_name
    let accepted_period ← pyDate y (idx : Int) 1
    pure (some (a, accepted_date, accepted_period))

/-- The `sent` block handling of `Meter.de_json`: for a non-null block, its
`date` field parsed as a date, together with the raw block. -/
def decodeSentInfo : Json → Except PyErr (Option (Json × PyDate))
  | .null => .ok none
  | a => do
    let d ← convert_date (← asStr (← a.getKey "date"))
    pure (some (a, d))

/-- Per-zone value extraction of `Meter.de_json`:
`None if block is None else float(block[zone_index])`. -/
def optZoneValue (block : Option Json) (zone_index : String) :
    Except PyErr (Option Rat) :=
  match block with
  | none => .ok none
  | some a => do
    let v ← a.getKey zone_index
    (pyFloat v).map some

/-- The `Meter` record of `api.py`. -/
structure Meter where
  id : String
  number : String
  service : Service
  submission_period_start_day : Int
  submission_period_end_day : Int
  status : String
  unit : String
  zones : List MeterZone
  account_id : Option String
  deriving Repr, DecidableEq

/-- `Meter.de_json` from `api.py`: decodes the `accepted` / `sent` /
`current` blocks (each of which may be `null`), parses the accepted period
string `"<MonthName> <Year>"` through `_CAPITAL_MONTH_NAMES.index`, and
enumerates `zoning`-many zones keyed `t1..tN`. -/
def Meter.de_json (data : Json) (account_id : Option String := none) :
    Except PyErr Meter := do
  let accepted ← data.getKey "accepted"
  let acceptedInfo ← decodeAcceptedInfo accepted
  let last_submitted ← data.getKey "sent"
  let lastInfo ← decodeSentInfo last_submitted
  let current ← data.getKey "current"
  let submitted : Option Json ←
    pure (match current with | .null => none | c => some c)
  let id ← asStr (← data.getKey "id")
  let number ← asStr (← data.getKey "number")
  let service ← Service.de_json (← data.getKey "service")
  let unit ← asStr (← data.getKey "unit")
  let status ← asStr (← data.getKey "status")
  let period ← data.getKey "period"
  let startDay ← pyInt (← period.getKey "from")
  let endDay ← pyInt (← period.getKey "to")
  let zoning ← pyInt (← data.getKey "zoning")
  let zones ← mapExcept (fun zone_index => do
      let acc ← optZoneValue (acceptedInfo.map Prod.fst) zone_index
      let ls ← optZoneValue (lastInfo.map Prod.fst) zone_index
      let sub ← optZoneValue submitted zone_index
      pure ({ id := zone_index,
              accepted := acc,
              last_submitted := ls,
              submitted := sub,
              accepted_date := acceptedInfo.map (fun x => x.2.1),
              accepted_period := acceptedInfo.map (fun x => x.2.2),
              last_submitted_date := lastInfo.map Prod.snd } : MeterZone))
    (zoneIndexIds zoning)
  pure { id, number, service,
         submission_period_start_day := startDay,
         submission_period_end_day := endDay,
         status, unit, zones, account_id }

/-- The `MeterCharacteristicsZone` record of `api.py`. -/
structure MeterCharacteristicsZone where
  id : String
  unit : String
  deriving Repr, DecidableEq

/-- The `MeterCharacteristics` record of `api.py`. -/
structure MeterCharacteristics where
  id : String
  code : String
  name : String
  number : String
  manufacturer : Option String
  brand : Option String
  model : Option String
  type : Option String
  accuracy_class : Option String
  digits : Option Int
  installation_date : Option PyDate
  last_checkup_date : Option PyDate
  next_checkup_date : Option PyDate
  zones : List MeterCharacteristicsZone
  residential_object_id : Option String
  deriving Repr, DecidableEq

/-- `MeterCharacteristics.de_json` from `api.py`: every nullable field goes
through `dash_or_converter`; zones are enumerated from the `zoning` count
with ids `t1..tN` and units from the `tariff1..tariffN` keys. -/
def MeterCharacteristics.de_json (data : Json)
    (residential_object_id : Option String := none) :
    Except PyErr MeterCharacteristics := do
  let id ← asStr (← data.getKey "id")
  let code ← asStr (← data.getKey "code")
  let name ← asStr (← data.getKey "name")
  let number ← asStr (← data.getKey "number")
  let manufacturer ← dash_or_converter (← data.getKey "manufacturer") (fun s => .ok s)
  let brand ← dash_or_converter (← data.getKey "mark") (fun s => .ok s)
  let model ← dash_or_converter (← data.getKey "model") (fun s => .ok s)
  let type ← dash_or_converter (← data.getKey "type") (fun s => .ok s)
  let accuracy_class ← dash_or_converter (← data.getKey "accuracy_class") (fun s => .ok s)
  let digits ← dash_or_converter (← data.getKey "digits") pyIntOfString
  let installation_date ← dash_or_converter (← data.getKey "installed_date") convert_date
  let last_checkup_date ← dash_or_converter (← data.getKey "verification_date") convert_date
  let next_checkup_date ← dash_or_converter (← data.getKey "verification_period") convert_date
  let zoning ← pyInt (← data.getKey "zoning")
  let zones ← mapExcept (fun i => do
      let u ← asStr (← data.getKey ("tariff" ++ toString i))
      pure (MeterCharacteristicsZone.mk ("t" ++ toString i) u))
    (List.range' 1 zoning.toNat)
  pure { id, code, name, number, manufacturer, brand, model, type,
         accuracy_class, digits, installation_date, last_checkup_date,
         next_checkup_date, zones, residential_object_id }

/-- The `AccrualsServiceZone` record of `api.py`. -/
structure AccrualsServiceZone where
  id : String
  cost : Rat
  current : Rat
  previous : Rat
  deriving Repr, DecidableEq

/-- The `ServiceCharge` record of `api.py`. -/
structure ServiceCharge where
  id : String
  code : String
  name : String
  initial : Rat
  paid : Rat
  charged : Rat
  unit : String
  increase_ratio_value : Option Rat
  increase_ratio_amount : Rat
  recalculation : Rat
  benefits : Rat
  penalty : Rat
  total : Rat
  percent : Rat
  percent_accrued : Rat
  zones : List AccrualsServiceZone
  deriving Repr, DecidableEq

/-- The `try: float(x) except TypeError: None` conversion used by
`ServiceCharge.de_json` for `increase_ratio_value` (a null input raises
`TypeError` in `float`, converted to `None`; other failures propagate). -/
def floatOrNoneOnTypeError (j : Json) : Except PyErr (Option Rat) :=
  match pyFloat j with
  | .ok q => .ok (some q)
  | .error .typeError => .ok none
  | .error e => .error e

/-- `ServiceCharge.de_json` from `api.py`: `initial` is the negated raw
`start_balance`, `total` is the raw `end_balance` kept as-is;
`increase_ratio_value` converts a `TypeError` (null input) to `None`; zones
are enumerated from the `zoning` count with per-zone lookups into the
`cost` / `previous_data` / `current_data` blocks. -/
def ServiceCharge.de_json (data : Json) : Except PyErr ServiceCharge := do
  let irv ← data.getKey "increase_ratio_value"
  let increase_ratio_value ← floatOrNoneOnTypeError irv
  let id ← asStr (← data.getKey "id")
  let code ← asStr (← data.getKey "code")
  let name ← asStr (← data.getKey "name")
  let startBalance ← pyFloat (← data.getKey "start_balance")
  let paid ← pyFloat (← data.getKey "payed")
  let charged ← pyFloat (← data.getKey "accrued")
  let unit ← asStr (← data.getKey "unit")
  let increase_ratio_amount ← pyFloat (← data.getKey "increase_ratio_amount")
  let recalculation ← pyFloat (← data.getKey "recalculation")
  let benefits ← pyFloat (← data.getKey "benefits")
  let penalty ← pyFloat (← data.getKey "penalty")
  let endBalance ← pyFloat (← data.getKey "end_balance")
  let percent ← pyFloat (← data.getKey "percent")
  let percent_accrued ← pyFloat (← data.getKey "percent_accrued")
  let zoning ← pyInt (← data.getKey "zoning")
  let zones ← mapExcept (fun zone_index => do
      let cost ← pyFloat (← (← data.getKey "cost").getKey zone_index)
      let previous ← pyFloat (← (← data.getKey "previous_data").getKey zone_index)
      let current ← pyFloat (← (← data.getKey "current_data").getKey zone_index)
      pure ({ id := zone_index, cost, current, previous } : AccrualsServiceZone))
    (zoneIndexIds zoning)
  pure { id, code, name, initial := -startBalance, paid, charged, unit,
         increase_ratio_value, increase_ratio_amount, recalculation, benefits,
         penalty, total := endBalance, percent, percent_accrued, zones }

/-- The `Account` record of `api.py` (the `residential_object`
back-reference, attached after construction in the source, is omitted). -/
structure Account where
  id : String
  number : String
  balance : Rat
  auto_payment_enabled : Bool
  digital_receipts_enabled : Bool
  indications_submission_available : Bool
  indications_submission_complete : Bool
  has_meters : Bool
  days_until_submission : Int
  services_text : String
  services_count : Int
  owner_id : String
  deriving Repr, DecidableEq

/-- The `try: int(x) except TypeError: -1` conversion used by
`Account.de_json` for `days_until_submission` (a null
`metrics_until_value` raises `TypeError` in `int`, converted to `-1`;
other failures propagate). -/
def intOrMinusOneOnTypeError (j : Json) : Except PyErr Int :=
  match pyInt j with
  | .ok n => .ok n
  | .error .typeError => .ok (-1)
  | .error e => .error e

/-- `Account.de_json` from `api.py`: `days_until_submission` converts a
`TypeError` (null `metrics_until_value`) to `-1`; `balance` is the negated
raw upstream value. -/
def Account.de_json (data : Json) : Except PyErr Account := do
  let mu ← data.getKey "metrics_until_value"
  let days_until_submission ← intOrMinusOneOnTypeError mu
  let id ← asStr (← data.getKey "id")
  let number ← asStr (← data.getKey "number")
  let balance ← pyFloat (← data.getKey "balance")
  let auto_payment_enabled ← asBool (← data.getKey "auto_payment_enabled")
  let digital_receipts_enabled ← asBool (← data.getKey "el_receipt_subscribed")
  let indications_submission_available ← asBool (← data.getKey "metrics_send_available")
  let indications_submission_complete ← asBool (← data.getKey "all_meters_sent")
  let has_meters ← asBool (← data.getKey "has_meters")
  let services_text ← asStr (← data.getKey "services")
  let services_count ← pyInt (← data.getKey "services_count")
  let owner_id ← asStr (← data.getKey "owner_id")
  pure { id, number, balance := -balance, auto_payment_enabled,
         digital_receipts_enabled, indications_submission_available,
         indications_submission_complete, has_meters, days_until_submission,
         services_text, services_count, owner_id }

/-- The `BalanceService` record of `api.py`. -/
structure BalanceService where
  id : String
  group : String
  code : String
  name : String
  total : Rat
  paid : Rat
  balance_actual : Rat
  accrued : Rat
  commission_percent : Rat
  commission_value : Rat
  commission_actual_balance : Rat
  deriving Repr, DecidableEq

/-- `BalanceService.de_json` from `api.py`: `total` is the raw
`end_balance` kept as-is, `balance_actual` is the negated raw
`actual_balance`. -/
def BalanceService.de_json (data : Json) : Except PyErr BalanceService := do
  let id ← asStr (← data.getKey "id")
  let group ← asStr (← data.getKey "group")
  let code ← asStr (← data.getKey "code")
  let name ← asStr (← data.getKey "name")
  let endBalance ← pyFloat (← data.getKey "end_balance")
  let actualBalance ← pyFloat (← data.getKey "actual_balance")
  let accrued ← pyFloat (← data.getKey "accrued")
  let commission_percent ← pyFloat (← data.getKey "commission_percent")
  let commission_value ← pyFloat (← data.getKey "commission_value")
  let commission_actual_balance ← pyFloat (← data.getKey "commission_actual_balance")
  let paid ← pyFloat (← data.getKey "payed_in_period")
  pure { id, group, code, name, total := endBalance, paid,
         balance_actual := -actualBalance, accrued, commission_percent,
         commission_value, commission_actual_balance }

/-- The upstream `POST /api/v1/meter/data/send` call issued at the end of a
successful indication push: the JSON body assembled by
`EnergosbytPlusAPI.async_push_indications`. -/
structure PushedCall where
  account_id : String
  meter_id : String
  indications : List (String × Rat)
  deriving Repr, DecidableEq

/-- `Meter.zone_ids` from `api.py`. -/
def Meter.zone_ids (m : Meter) : List String :=
  m.zones.map MeterZone.id

/-- `Meter.is_submission_period_active` from `api.py`, with `date.today().day`
passed explicitly as `today_day`. -/
def Meter.is_submission_period_active (m : Meter) (today_day : Int) : Prop :=
  m.submission_period_start_day ≤ today_day ∧ today_day ≤ m.submission_period_end_day

instance (m : Meter) (today_day : Int) :
    Decidable (m.is_submission_period_active today_day) := by
  unfold Meter.is_submission_period_active
  infer_instance

/-- Inner loop of the value check of `Meter.async_push_indications`: for one
submitted `(zone_id, zone_value)` pair, scan the meter's zones and fail
when a zone with that id has a recorded maximum above the value:
`max(zone.submitted or 0.0, zone.last_submitted or 0.0, zone.accepted or 0.0)`. -/
def checkZoneValue (zid : String) (v : Rat) : List MeterZone → Except PyErr Unit
  | [] => .ok ()
  | z :: zs =>
    if z.id = zid then
      let max_value := max (z.submitted.getD 0) (max (z.last_submitted.getD 0) (z.accepted.getD 0))
      if v < max_value then
        .error (.espException ("submitted value for zone " ++ zid ++
          " is less than zone max value"))
      else checkZoneValue zid v zs
    else checkZoneValue zid v zs

/-- Outer loop of the value check of `Meter.async_push_indications`: the scan
above, for every submitted pair in order. -/
def checkZoneValues (zones : List MeterZone) : List (String × Rat) → Except PyErr Unit
  | [] => .ok ()
  | (zid, v) :: rest => do
    checkZoneValue zid v zones
    checkZoneValues zones rest

/-- `EnergosbytPlusAPI.async_push_indications` from `api.py`, after the
positional-argument merge: asserts at least one indication and issues the
upstream POST, whose body is returned as the success value (an `.ok` result
is exactly "the upstream submission call was reached"). -/
def EnergosbytPlusAPI.async_push_indications (account_id meter_id : String)
    (indications : List (String × Rat)) : Except PyErr PushedCall :=
  if indications = [] then
    .error (.assertionError "at least one indication must be provided")
  else
    .ok ⟨account_id, meter_id, indications⟩

/-- `Meter.async_push_indications` from `api.py`, after the
positional-argument merge (`indications` plays the role of `kwargs`).
`hasApi` is whether the record carries its API back-reference; the checks
run in source order: API presence, account id presence, invalid zone ids,
submission period (unless `ignore_periods`), value monotonicity (unless
`ignore_values`), then the upstream call. -/
def Meter.async_push_indications (m : Meter) (hasApi : Bool)
    (indications : List (String × Rat)) (ignore_periods ignore_values : Bool)
    (today_day : Int) : Except PyErr PushedCall :=
  if hasApi = false then
    .error (.methodRequiresAPI "bound api object is required to retrieve balance")
  else
    match m.account_id with
    | none => .error (.objectMissingData "account id not set for meter")
    | some account_id =>
      let invalid_zone_ids :=
        (indications.map Prod.fst).filter (fun k => !(m.zone_ids.contains k))
      if invalid_zone_ids ≠ [] then
        .error (.espException ("invalid zones provided: " ++
          String.intercalate "," invalid_zone_ids))
      else if ¬(ignore_periods = true ∨ m.is_submission_period_active today_day) then
        .error (.espException "submission period is not active")
      else do
        if ignore_values = false then checkZoneValues m.zones indications else pure ()
        EnergosbytPlusAPI.async_push_indications account_id m.id indications

/-- `LOGIN_TYPE_CONTACT` from `api.py`. -/
def LOGIN_TYPE_CONTACT : String := "contact"

/-- `LOGIN_TYPE_ACCOUNT` from `api.py`. -/
def LOGIN_TYPE_ACCOUNT : String := "account"

/-- Python `str.isnumeric()` restricted to ASCII digits (the usernames in
scope are account numbers and phone numbers). -/
def pyIsNumeric (s : String) : Bool :=
  !s.isEmpty && s.data.all Char.isDigit

/-- Rendering of an exception, as interpolated into the authentication
error message. -/
def PyErr.describe : PyErr → String
  | .keyError k => "KeyError: " ++ k
  | .valueError => "ValueError"
  | .typeError => "TypeError"
  | .assertionError m => "AssertionError: " ++ m
  | .espException m => m
  | .objectMissingData m => m
  | .methodRequiresAPI m => m
  | .unauthenticated m => m
  | .externalError => "external error"

/-- `EnergosbytPlusAPI.async_authenticate` from `api.py`.  `login t` is the
outcome of the `POST /api/v1/auth/login` request with `login_type = t` (all
other request fields are fixed by the client state).  Returns the final
outcome together with the list of `login_type` values attempted, in order:
with no fixed login type, a numeric username selects `account` and arms the
fallback; a first-attempt failure without the fallback armed is wrapped and
surfaced; with the fallback armed, one more attempt with `contact` is made
and its outcome is surfaced unchanged. -/
def async_authenticate (login_type_fixed : Option String) (username : String)
    (login : String → Except PyErr α) : Except PyErr α × List String :=
  let p : String × Bool :=
    match login_type_fixed with
    | some t => (t, false)
    | none =>
      if pyIsNumeric username then (LOGIN_TYPE_ACCOUNT, true)
      else (LOGIN_TYPE_CONTACT, false)
  match login p.1 with
  | .ok content => (.ok content, [p.1])
  | .error e =>
    if p.2 = false then
      (.error (.espException ("Error during authentication: " ++ e.describe)), [p.1])
    else
      (login LOGIN_TYPE_CONTACT, [p.1, LOGIN_TYPE_CONTACT])

/-- `with_auto_auth` from `_util.py`.  `async_getter k` is the outcome of the
`k`-th invocation of the wrapped operation and `auth` the outcome of
`api.async_authenticate()`.  Returns the final outcome, the number of
`authenticate()` calls made, and the number of invocations of the wrapped
operation.  The source catches exactly `EnergosbytPlusException`: on such a
failure it authenticates and re-invokes the operation once; any other
exception propagates untouched. -/
def with_auto_auth (auth : Except PyErr Unit)
    (async_getter : Nat → Except PyErr α) : Except PyErr α × Nat × Nat :=
  match async_getter 1 with
  | .ok v => (.ok v, 0, 1)
  | .error e =>
    if e.isEnergosbytPlusException then
      match auth with
      | .error ae => (.error ae, 1, 1)
      | .ok _ => (async_getter 2, 1, 2)
    else
      (.error e, 0, 1)

/-- Mutable token state of `EnergosbytPlusAPI` relevant to header
construction. -/
structure ApiTokenState where
  access_token : Option String
  access_token_type : String
  token_expires_at : Rat
  deriving Repr, DecidableEq

/-- `EnergosbytPlusAPI.is_token_expired` from `api.py`:
`time() > self._token_expires_at`, with the clock passed as `now`. -/
def ApiTokenState.is_token_expired (st : ApiTokenState) (now : Rat) : Bool :=
  decide (now > st.token_expires_at)

/-- A Python value as scrutinised by an `is None` comparison: the source
compares the boolean `is_token_expired` property against `None`. -/
inductive PyVal where
  | vNone
  | vBool (b : Bool)
  deriving Repr, DecidableEq

/-- Python `x is None`. -/
def PyVal.isNone : PyVal → Bool
  | .vNone => true
  | _ => false

/-- Python f-string interpolation of an optional string (`None` prints as
`"None"`). -/
def pyStrOfOption : Option String → String
  | some s => s
  | none => "None"

/-- Python `dict[key] = value` on an association list: replace the existing
entry or append a new one. -/
def dictSet (l : List (String × String)) (k v : String) : List (String × String) :=
  if l.any (fun p => p.1 == k) then
    l.map (fun p => if p.1 == k then (k, v) else p)
  else
    l ++ [(k, v)]

/-- `EnergosbytPlusAPI._get_request_headers` from `api.py`: adds the fixed
client-identification headers, and, for an authenticated request, guards on
`if self.is_token_expired is None` — a comparison of a boolean against
`None` — before attaching the
`f"{self._access_token_type} {self._access_token}"` header. -/
def get_request_headers (st : ApiTokenState) (now : Rat) (authenticated : Bool)
    (headers : List (String × String)) : Except PyErr (List (String × String)) :=
  let hs := dictSet (dictSet headers "x-requested-from" "esb-mobile-app")
    "User-Agent" "okhttp/3.12.1"
  if authenticated then
    if (PyVal.vBool (st.is_token_expired now)).isNone then
      .error (.unauthenticated "account is not authenticated")
    else
      .ok (dictSet hs "Authorization"
        (st.access_token_type ++ " " ++ pyStrOfOption st.access_token))
  else
    .ok hs

/-- Python `str.zfill` for non-negative numerals: left-pad with zeros to the
given width. -/
def zfill (width : Nat) (s : String) : String :=
  if s.length ≥ width then s
  else String.mk (List.replicate (width - s.length) '0') ++ s

/-- The `MM.YYYY` rendering of a period bound used by `async_get_payments`:
`f"{str(d.month).zfill(2)}.{str(d.year).zfill(4)}"`. -/
def periodParamString (d : PyDate) : String :=
  zfill 2 (toString d.month) ++ "." ++ zfill 4 (toString d.year)

/-- The query-parameter assembly of `EnergosbytPlusAPI.async_get_payments`
from `api.py`, with `date.today()` passed as `today`: a missing period end
defaults to today; a missing period start defaults to the first day of the
month three months before the period end (borrowing from the previous year
for January, February and March); both bounds are transmitted as `MM.YYYY`
strings. -/
def async_get_payments_query (account_id : String) (today : PyDate)
    (period_start period_end : Option PyDate) (limit : Int) :
    Except PyErr (List (String × String)) := do
  let pe := match period_end with
    | some p => p
    | none => today
  let ps ← match period_start with
    | some p => pure p
    | none =>
      if pe.month < (4 : Int) then
        pyDate (pe.year - 1) (12 + pe.month - 3) 1
      else
        pyDate pe.year (pe.month - 3) 1
  pure [("account_id", account_id),
        ("period_from", periodParamString ps),
        ("period_to", periodParamString pe),
        ("limit", toString limit),
        ("offset", "0")]

/-- Observable events of one refresh cycle of `async_refresh_api_data`
(`_base.py`): completion of an individual wrapped update task (with the
value `_wrap_update_task` hands to the collection loop), and one batch-add
callback invocation per platform. -/
inductive OrchEvent (π ε : Type) where
  | taskCompleted (platform : π) (idx : Nat) (result : Option (List ε))
  | entitiesAdded (platform : π) (entities : List ε)
  deriving Repr, DecidableEq

/-- `_wrap_update_task` from `async_refresh_api_data` (`_base.py`): any
exception raised by the update task is caught, logged, and converted to
`None`. -/
def wrap_update_task : Except PyErr (Option (List ε)) → Option (List ε)
  | .error _ => none
  | .ok r => r

/-- The entity-collection loop of `async_refresh_api_data`: start from an
empty batch and extend it with every non-`None` task result, in order. -/
def collectNewEntities (tasks : List (Except PyErr (Option (List ε)))) : List ε :=
  (tasks.map wrap_update_task).foldl
    (fun acc r => match r with | none => acc | some xs => acc ++ xs) []

/-- The execution trace of one refresh cycle of `async_refresh_api_data`
(`_base.py`): `platform_tasks` maps each platform to its scheduled update
tasks, each given by its outcome (an exception, or an optional list of newly
created entities).  The nested `asyncio.gather` awaits every wrapped task —
so every task completes, whatever the others do — and only then does the
collection loop run, invoking each platform's batch-add callback once,
and only when its batch is non-empty. -/
def async_refresh_api_data
    (platform_tasks : List (π × List (Except PyErr (Option (List ε))))) :
    List (OrchEvent π ε) :=
  (platform_tasks.flatMap fun pt =>
    pt.2.enum.map fun it => OrchEvent.taskCompleted pt.1 it.1 (wrap_update_task it.2))
  ++ (platform_tasks.flatMap fun pt =>
    let all_new_entities := collectNewEntities pt.2
    if all_new_entities.isEmpty then []
    else [OrchEvent.entitiesAdded pt.1 all_new_entities])

instance [DecidableEq η] [DecidableEq α] : DecidableEq (Except η α) := fun x y =>
  match x, y with
  | .ok a, .ok b =>
    if h : a = b then isTrue (h ▸ rfl) else isFalse (fun hc => h (Except.ok.inj hc))
  | .error a, .error b =>
    if h : a = b then isTrue (h ▸ rfl) else isFalse (fun hc => h (Except.error.inj hc))
  | .ok _, .error _ => isFalse (fun hc => Except.noConfusion hc)
  | .error _, .ok _ => isFalse (fun hc => Except.noConfusion hc)

/-- Local state of one caller of the collective-fetch classmethods
(`EnergosbytPlusMeter._collective_get_meter_data_for_account` and
`_EnergosbytPlusChargesEntityBase._collective_get_charges_data_for_account`
in `sensor.py`, which are textually identical up to the wrapped fetch call):
`start` — about to perform the dictionary lookup; `leading fid` — created
future `fid`, stored it in the class dictionary and awaiting the fetch;
`waiting fid` — found future `fid` in the dictionary and awaiting it;
`done r` — returned `r` (or raised it, when `r` is an error). -/
inductive ProcState (α : Type) where
  | start
  | leading (fid : Nat)
  | waiting (fid : Nat)
  | done (r : Except PyErr α)
  deriving Repr, DecidableEq

/-- Shared state of the coalescer for one account key: `slot` is the entry
of the class-level `_collective_update_futures` dictionary for that account
(a future id, or absent); `futures fid` is the resolved outcome of future
`fid` (or `none` while unresolved); `nextFid` numbers freshly created
futures; `fetchCount` counts invocations of the underlying fetch
(`account.async_get_meters()` / `account.async_get_charges()`); `procs` are
the callers. -/
structure CoalState (α : Type) where
  slot : Option Nat
  futures : Nat → Option (Except PyErr α)
  nextFid : Nat
  fetchCount : Nat
  procs : List (ProcState α)

/-- One cooperative step of caller `i`, with `out` the outcome the underlying
fetch produces.  Each case is one atomic region of the Python coroutine
(code between two suspension points):
a `start` caller atomically looks up the dictionary and either installs a
fresh future and invokes the fetch (empty slot) or subscribes to the
in-flight future; a `leading` caller's fetch completes, and in one region the
future is resolved (`set_result` / `set_exception`), the `finally` block
deletes the dictionary entry, and the caller returns the outcome; a
`waiting` caller wakes only once its future is resolved and returns the
resolved outcome; steps of `done` callers and out-of-range indices are
no-ops. -/
def coalStep (out : Except PyErr α) (s : CoalState α) (i : Nat) : CoalState α :=
  match s.procs.get? i with
  | none => s
  | some .start =>
    match s.slot with
    | none =>
      { s with slot := some s.nextFid,
               nextFid := s.nextFid + 1,
               fetchCount := s.fetchCount + 1,
               procs := s.procs.set i (.leading s.nextFid) }
    | some fid => { s with procs := s.procs.set i (.waiting fid) }
  | some (.leading fid) =>
    { s with slot := none,
             futures := fun j => if j = fid then some out else s.futures j,
             procs := s.procs.set i (.done out) }
  | some (.waiting fid) =>
    match s.futures fid with
    | some r => { s with procs := s.procs.set i (.done r) }
    | none => s
  | some (.done _) => s

/-- Execution of a schedule (a sequence of caller indices chosen by the event
loop). -/
def coalRun (out : Except PyErr α) (s : CoalState α) (sched : List Nat) : CoalState α :=
  sched.foldl (coalStep out) s

/-- Initial coalescer state for `n` callers: empty dictionary slot, no
futures, no fetches performed. -/
def coalInit (α : Type) (n : Nat) : CoalState α :=
  ⟨none, fun _ => none, 0, 0, List.replicate n .start⟩

/-- Invariant of the coalescer during the arrival window: the leader has
installed future `0` in the dictionary slot and its fetch is in flight
(one fetch invocation, future unresolved), and every caller is still
arriving, leading future `0`, or awaiting future `0`. -/
structure CoalMid (α : Type) (s : CoalState α) : Prop where
  slot : s.slot = some 0
  nextFid : s.nextFid = 1
  fetch : s.fetchCount = 1
  futures : ∀ j, s.futures j = none
  procs : ∀ p ∈ s.procs, p = ProcState.start ∨ p = ProcState.leading 0 ∨
    p = ProcState.waiting 0
  lead : ∃ i, s.procs.get? i = some (ProcState.leading 0)

/-- Invariant of the coalescer after every caller has arrived: one fetch has
been invoked, future `0` is unresolved or resolved with the fetch outcome
`out`, the dictionary slot is occupied only while some caller is still
leading, and every caller is leading, waiting, or done with outcome `out`. -/
structure CoalEnd (α : Type) (out : Except PyErr α) (s : CoalState α) : Prop where
  fetch : s.fetchCount = 1
  futures0 : s.futures 0 = none ∨ s.futures 0 = some out
  slot : s.slot = none ∨ s.slot = some 0
  procs : ∀ p ∈ s.procs, p = ProcState.leading 0 ∨ p = ProcState.waiting 0 ∨
    p = ProcState.done out
  slot_lead : s.slot = some 0 → ∃ i, s.procs.get? i = some (ProcState.leading 0)

/-- A meter document as consumed by `Meter.de_json`, whose `accepted` block
carries the period string `"Март 2024"` (March 2024) and one zone. -/
def meterJsonMarch : Json :=
  .obj [
    ("accepted", .obj [
      ("date", .str "10.04.2024"),
      ("period", .str "Март 2024"),
      ("t1", .num 80)]),
    ("sent", .null),
    ("current", .null),
    ("id", .str "m1"),
    ("number", .str "123"),
    ("service", .obj [("id", .str "s1"), ("code", .str "el"),
      ("name", .str "Электроэнергия")]),
    ("unit", .str "кВт·ч"),
    ("status", .str "active"),
    ("period", .obj [("from", .num 15), ("to", .num 25)]),
    ("zoning", .num 1)]

/-- The same document with the period string `"Январь 2024"` (January 2024). -/
def meterJsonJanuary : Json :=
  .obj [
    ("accepted", .obj [
      ("date", .str "10.02.2024"),
      ("period", .str "Январь 2024"),
      ("t1", .num 80)]),
    ("sent", .null),
    ("current", .null),
    ("id", .str "m1"),
    ("number", .str "123"),
    ("service", .obj [("id", .str "s1"), ("code", .str "el"),
      ("name", .str "Электроэнергия")]),
    ("unit", .str "кВт·ч"),
    ("status", .str "active"),
    ("period", .obj [("from", .num 15), ("to", .num 25)]),
    ("zoning", .num 1)]

/-- Whether an `Except` value is a success. -/
def exceptIsOk : Except PyErr β → Bool
  | .ok _ => true
  | .error _ => false

/-- A service-charge document as consumed by `ServiceCharge.de_json`, with
two zones, `start_balance = 150` and `end_balance = 170`. -/
def scJson : Json :=
  .obj [
    ("increase_ratio_value", .null),
    ("id", .str "svc1"),
    ("code", .str "el"),
    ("name", .str "Электроэнергия"),
    ("start_balance", .num 150),
    ("payed", .num 100),
    ("accrued", .num 120),
    ("unit", .str "кВт·ч"),
    ("increase_ratio_amount", .num 0),
    ("recalculation", .num 0),
    ("benefits", .num 0),
    ("penalty", .num 0),
    ("end_balance", .num 170),
    ("percent", .num 0),
    ("percent_accrued", .num 0),
    ("zoning", .num 2),
    ("cost", .obj [("t1", .num 5), ("t2", .num 3)]),
    ("previous_data", .obj [("t1", .num 100), ("t2", .num 50)]),
    ("current_data", .obj [("t1", .num 110), ("t2", .num 60)])]

/-- A meter-characteristics document as consumed by
`MeterCharacteristics.de_json`, with two zones and several dash-sentinel
fields. -/
def mcJson : Json :=
  .obj [
    ("id", .str "m1"),
    ("code", .str "el"),
    ("name", .str "Счётчик"),
    ("number", .str "123"),
    ("manufacturer", .str "-"),
    ("mark", .str "Меркурий"),
    ("model", .str "230"),
    ("type", .str "-"),
    ("accuracy_class", .str "1"),
    ("digits", .str "6"),
    ("installed_date", .str "01.02.2015"),
    ("verification_date", .str "-"),
    ("verification_period", .str "01.02.2031"),
    ("zoning", .num 2),
    ("tariff1", .str "кВт·ч"),
    ("tariff2", .str "кВт·ч")]

/-- An account document as consumed by `Account.de_json`, with raw
`balance = 250`. -/
def accJson : Json :=
  .obj [
    ("metrics_until_value", .null),
    ("id", .str "acc1"),
    ("number", .str "100500"),
    ("balance", .num 250),
    ("auto_payment_enabled", .bool false),
    ("el_receipt_subscribed", .bool true),
    ("metrics_send_available", .bool true),
    ("all_meters_sent", .bool false),
    ("has_meters", .bool true),
    ("services", .str "Электроснабжение; Горячее водоснабжение"),
    ("services_count", .num 2),
    ("owner_id", .str "own1")]

/-- A balance-service document as consumed by `BalanceService.de_json`,
with raw `end_balance = 170` and `actual_balance = 90`. -/
def bsJson : Json :=
  .obj [
    ("id", .str "bs1"),
    ("group", .str "g1"),
    ("code", .str "el"),
    ("name", .str "Электроэнергия"),
    ("end_balance", .num 170),
    ("actual_balance", .num 90),
    ("accrued", .num 120),
    ("commission_percent", .num 0),
    ("commission_value", .num 0),
    ("commission_actual_balance", .num 0),
    ("payed_in_period", .num 100)]

/-- The meter of end-to-end scenario 3: one zone `t1` with
`submitted = 90.0`, `accepted = 80.0`, no `last_submitted`, submission
period spanning the whole month, bound to an account. -/
def exampleMeterC7 : Meter :=
  { id := "m1", number := "001",
    service := { id := "s1", code := "el", name := "Электроэнергия" },
    submission_period_start_day := 1, submission_period_end_day := 31,
    status := "active", unit := "кВт·ч",
    zones := [{ id := "t1", accepted := some 80, last_submitted := none,
                submitted := some 90, accepted_date := none,
                accepted_period := none, last_submitted_date := none }],
    account_id := some "acc1" }

/-- C1: the claim states that decoding `accepted.period = "Март 2024"` sets
every zone's `accepted_period` to 2024-03-01.  The code instead uses the
0-based `tuple.index` of the month name as the month number, so the decoded
`accepted_period` is 2024-02-01 — one month early — and `"Январь 2024"`
(index 0) makes the `date` constructor itself raise `ValueError`, so every
January period fails to decode at all.  (A name absent from the table does
make decoding fail, as the claim says.) -/
theorem meter_accepted_period_off_by_one :
    tupleIndex capitalMonthNames "Март" = .ok 2 ∧
    (Meter.de_json meterJsonMarch (some "acc")).map
        (fun m => m.zones.map MeterZone.accepted_period) = .ok [some ⟨2024, 2, 1⟩] ∧
    (Meter.de_json meterJsonMarch (some "acc")).map
        (fun m => m.zones.map MeterZone.accepted_period) ≠ .ok [some ⟨2024, 3, 1⟩] ∧
    Meter.de_json meterJsonJanuary (some "acc") = .error .valueError ∧
    tupleIndex capitalMonthNames "March" = .error .valueError := by
  decide

/-- Inversion of a successful `Except` bind. -/
theorem except_bind_ok {β γ : Type} {e : Except PyErr β} {f : β → Except PyErr γ}
    {v : γ} (h : e >>= f = .ok v) : ∃ b, e = .ok b ∧ f b = .ok v := by
  cases e with
  | ok b => exact ⟨b, rfl, h⟩
  | error a => exact Except.noConfusion h

/-- A successful `mapExcept` preserves the length of the input list. -/
theorem mapExcept_ok_length {α β : Type} {f : α → Except PyErr β} :
    ∀ {xs : List α} {ys : List β}, mapExcept f xs = .ok ys → ys.length = xs.length := by
  intro xs
  induction xs with
  | nil =>
    intro ys h
    simp only [mapExcept] at h
    cases h
    rfl
  | cons x xs ih =>
    intro ys h
    simp only [mapExcept] at h
    obtain ⟨b, hb, h⟩ := except_bind_ok h
    obtain ⟨bs, hbs, h⟩ := except_bind_ok h
    cases h
    simp only [List.length_cons, ih hbs]

/-- When every successful element of a `mapExcept` satisfies a pointwise
projection law, the projections of a successful result are the pointwise
images of the inputs. -/
theorem mapExcept_ok_map {α β γ : Type} {f : α → Except PyErr β} {g : β → γ}
    {k : α → γ} (hf : ∀ a b, f a = .ok b → g b = k a) :
    ∀ {xs : List α} {ys : List β}, mapExcept f xs = .ok ys → ys.map g = xs.map k := by
  intro xs
  induction xs with
  | nil =>
    intro ys h
    simp only [mapExcept] at h
    cases h
    rfl
  | cons x xs ih =>
    intro ys h
    simp only [mapExcept] at h
    obtain ⟨b, hb, h⟩ := except_bind_ok h
    obtain ⟨bs, hbs, h⟩ := except_bind_ok h
    cases h
    simp only [List.map_cons, hf x b hb, ih hbs]

/-- Length of the `t1..tN` identifier list. -/
theorem zoneIndexIds_length (n : Int) : (zoneIndexIds n).length = n.toNat := by
  simp [zoneIndexIds]

/-- The `i`-th element of the `t1..tN` identifier list is `t(i+1)`. -/
theorem zoneIndexIds_get (n : Int) (i : Nat) (hi : i < (zoneIndexIds n).length) :
    (zoneIndexIds n).get ⟨i, hi⟩ = "t" ++ toString (i + 1) := by
  simp only [zoneIndexIds, List.get_eq_getElem, List.getElem_map, List.getElem_range']
  have e : 1 * i + 1 = i + 1 := by omega
  rw [Nat.add_comm, e]

/-- A list whose projections are the `t1..tN` identifiers has `t(i+1)` as
the projection of its `i`-th element. -/
theorem map_eq_zoneIndexIds_get {β : Type} {ys : List β} {g : β → String} {n : Int}
    (h : ys.map g = zoneIndexIds n) (i : Nat) (hi : i < ys.length) :
    g (ys.get ⟨i, hi⟩) = "t" ++ toString (i + 1) := by
  have hlen : ys.length = (zoneIndexIds n).length := by
    simpa using congrArg List.length h
  have hi' : i < (zoneIndexIds n).length := hlen ▸ hi
  have h2 : (ys.map g)[i]? = some ("t" ++ toString (i + 1)) := by
    rw [h, List.getElem?_eq_getElem hi']
    exact congrArg some (by simpa using zoneIndexIds_get n i hi')
  rw [List.getElem?_map, List.getElem?_eq_getElem (by simpa using hi)] at h2
  simpa using h2

/-- Inversion of a successful `Meter.de_json` at the zone list: with the
document's `zoning` field reading as the integer `N`, the decoded zones'
identifiers are exactly the `t1..tN` identifiers in order. -/
theorem Meter.de_json_zone_ids {data : Json} {account_id : Option String} {m : Meter}
    (h : Meter.de_json data account_id = .ok m) :
    ∀ {zj : Json} {N : Int}, data.getKey "zoning" = .ok zj → pyInt zj = .ok N →
      m.zones.map MeterZone.id = zoneIndexIds N := by
  intro zj N hz1 hz2
  unfold Meter.de_json at h
  obtain ⟨accepted, _, h⟩ := except_bind_ok h
  obtain ⟨acceptedInfo, _, h⟩ := except_bind_ok h
  obtain ⟨lastS, _, h⟩ := except_bind_ok h
  obtain ⟨lastInfo, _, h⟩ := except_bind_ok h
  obtain ⟨current, _, h⟩ := except_bind_ok h
  obtain ⟨submitted, _, h⟩ := except_bind_ok h
  obtain ⟨idJ, _, h⟩ := except_bind_ok h
  obtain ⟨idS, _, h⟩ := except_bind_ok h
  obtain ⟨numJ, _, h⟩ := except_bind_ok h
  obtain ⟨numS, _, h⟩ := except_bind_ok h
  obtain ⟨svcJ, _, h⟩ := except_bind_ok h
  obtain ⟨svc, _, h⟩ := except_bind_ok h
  obtain ⟨unitJ, _, h⟩ := except_bind_ok h
  obtain ⟨unitS, _, h⟩ := except_bind_ok h
  obtain ⟨statusJ, _, h⟩ := except_bind_ok h
  obtain ⟨statusS, _, h⟩ := except_bind_ok h
  obtain ⟨periodJ, _, h⟩ := except_bind_ok h
  obtain ⟨fromJ, _, h⟩ := except_bind_ok h
  obtain ⟨fromI, _, h⟩ := except_bind_ok h
  obtain ⟨toJ, _, h⟩ := except_bind_ok h
  obtain ⟨toI, _, h⟩ := except_bind_ok h
  obtain ⟨zJ, hzJ, h⟩ := except_bind_ok h
  obtain ⟨zoning, hzoning, h⟩ := except_bind_ok h
  obtain ⟨zones, hzones, h⟩ := except_bind_ok h
  cases h
  rw [hz1] at hzJ
  cases hzJ
  rw [hz2] at hzoning
  cases hzoning
  have hmap := mapExcept_ok_map (g := MeterZone.id) (k := fun a => a)
    (fun a b hab => by
      obtain ⟨acc, _, hab⟩ := except_bind_ok hab
      obtain ⟨ls, _, hab⟩ := except_bind_ok hab
      obtain ⟨sub, _, hab⟩ := except_bind_ok hab
      cases hab
      rfl) hzones
  simpa using hmap

/-- Inversion of a successful `ServiceCharge.de_json`: the sign conventions
of the monetary fields (`initial` negated, `total` kept) and the zone
enumeration. -/
theorem ServiceCharge.de_json_sign_and_zones {data : Json} {sc : ServiceCharge}
    (h : ServiceCharge.de_json data = .ok sc) :
    (∀ {bj : Json} {q : Rat}, data.getKey "start_balance" = .ok bj →
      pyFloat bj = .ok q → sc.initial = -q) ∧
    (∀ {bj : Json} {q : Rat}, data.getKey "end_balance" = .ok bj →
      pyFloat bj = .ok q → sc.total = q) ∧
    (∀ {zj : Json} {N : Int}, data.getKey "zoning" = .ok zj → pyInt zj = .ok N →
      sc.zones.map AccrualsServiceZone.id = zoneIndexIds N) := by
  unfold ServiceCharge.de_json at h
  obtain ⟨irv, _, h⟩ := except_bind_ok h
  obtain ⟨irvV, _, h⟩ := except_bind_ok h
  obtain ⟨idJ, _, h⟩ := except_bind_ok h
  obtain ⟨idS, _, h⟩ := except_bind_ok h
  obtain ⟨codeJ, _, h⟩ := except_bind_ok h
  obtain ⟨codeS, _, h⟩ := except_bind_ok h
  obtain ⟨nameJ, _, h⟩ := except_bind_ok h
  obtain ⟨nameS, _, h⟩ := except_bind_ok h
  obtain ⟨sbJ, hsbJ, h⟩ := except_bind_ok h
  obtain ⟨sbV, hsbV, h⟩ := except_bind_ok h
  obtain ⟨paidJ, _, h⟩ := except_bind_ok h
  obtain ⟨paidV, _, h⟩ := except_bind_ok h
  obtain ⟨chJ, _, h⟩ := except_bind_ok h
  obtain ⟨chV, _, h⟩ := except_bind_ok h
  obtain ⟨unitJ, _, h⟩ := except_bind_ok h
  obtain ⟨unitS, _, h⟩ := except_bind_ok h
  obtain ⟨iraJ, _, h⟩ := except_bind_ok h
  obtain ⟨iraV, _, h⟩ := except_bind_ok h
  obtain ⟨recJ, _, h⟩ := except_bind_ok h
  obtain ⟨recV, _, h⟩ := except_bind_ok h
  obtain ⟨benJ, _, h⟩ := except_bind_ok h
  obtain ⟨benV, _, h⟩ := except_bind_ok h
  obtain ⟨penJ, _, h⟩ := except_bind_ok h
  obtain ⟨penV, _, h⟩ := except_bind_ok h
  obtain ⟨ebJ, hebJ, h⟩ := except_bind_ok h
  obtain ⟨ebV, hebV, h⟩ := except_bind_ok h
  obtain ⟨pcJ, _, h⟩ := except_bind_ok h
  obtain ⟨pcV, _, h⟩ := except_bind_ok h
  obtain ⟨paJ, _, h⟩ := except_bind_ok h
  obtain ⟨paV, _, h⟩ := except_bind_ok h
  obtain ⟨zJ, hzJ, h⟩ := except_bind_ok h
  obtain ⟨zoning, hzoning, h⟩ := except_bind_ok h
  obtain ⟨zones, hzones, h⟩ := except_bind_ok h
  cases h
  refine ⟨?_, ?_, ?_⟩
  · intro bj q h1 h2
    rw [h1] at hsbJ
    cases hsbJ
    rw [h2] at hsbV
    cases hsbV
    rfl
  · intro bj q h1 h2
    rw [h1] at hebJ
    cases hebJ
    rw [h2] at hebV
    cases hebV
    rfl
  · intro zj N h1 h2
    rw [h1] at hzJ
    cases hzJ
    rw [h2] at hzoning
    cases hzoning
    have hmap := mapExcept_ok_map (g := AccrualsServiceZone.id) (k := fun a => a)
      (fun a b hab => by
        obtain ⟨cJ, _, hab⟩ := except_bind_ok hab
        obtain ⟨cJ2, _, hab⟩ := except_bind_ok hab
        obtain ⟨cV, _, hab⟩ := except_bind_ok hab
        obtain ⟨pJ, _, hab⟩ := except_bind_ok hab
        obtain ⟨pJ2, _, hab⟩ := except_bind_ok hab
        obtain ⟨pV, _, hab⟩ := except_bind_ok hab
        obtain ⟨uJ, _, hab⟩ := except_bind_ok hab
        obtain ⟨uJ2, _, hab⟩ := except_bind_ok hab
        obtain ⟨uV, _, hab⟩ := except_bind_ok hab
        cases hab
        rfl) hzones
    simpa using hmap

/-- Inversion of a successful `MeterCharacteristics.de_json` at the zone
list: with the document's `zoning` field reading as the integer `N`, the
decoded zones' identifiers are exactly the `t1..tN` identifiers in order. -/
theorem MeterCharacteristics.de_json_tariff_zone_ids {data : Json}
    {roid : Option String} {mc : MeterCharacteristics}
    (h : MeterCharacteristics.de_json data roid = .ok mc) :
    ∀ {zj : Json} {N : Int}, data.getKey "zoning" = .ok zj → pyInt zj = .ok N →
      mc.zones.map MeterCharacteristicsZone.id = zoneIndexIds N := by
  intro zj N hz1 hz2
  unfold MeterCharacteristics.de_json at h
  obtain ⟨idJ, _, h⟩ := except_bind_ok h
  obtain ⟨idS, _, h⟩ := except_bind_ok h
  obtain ⟨codeJ, _, h⟩ := except_bind_ok h
  obtain ⟨codeS, _, h⟩ := except_bind_ok h
  obtain ⟨nameJ, _, h⟩ := except_bind_ok h
  obtain ⟨nameS, _, h⟩ := except_bind_ok h
  obtain ⟨numJ, _, h⟩ := except_bind_ok h
  obtain ⟨numS, _, h⟩ := except_bind_ok h
  obtain ⟨manJ, _, h⟩ := except_bind_ok h
  obtain ⟨manV, _, h⟩ := except_bind_ok h
  obtain ⟨brJ, _, h⟩ := except_bind_ok h
  obtain ⟨brV, _, h⟩ := except_bind_ok h
  obtain ⟨moJ, _, h⟩ := except_bind_ok h
  obtain ⟨moV, _, h⟩ := except_bind_ok h
  obtain ⟨tyJ, _, h⟩ := except_bind_ok h
  obtain ⟨tyV, _, h⟩ := except_bind_ok h
  obtain ⟨acJ, _, h⟩ := except_bind_ok h
  obtain ⟨acV, _, h⟩ := except_bind_ok h
  obtain ⟨digJ, _, h⟩ := except_bind_ok h
  obtain ⟨digV, _, h⟩ := except_bind_ok h
  obtain ⟨insJ, _, h⟩ := except_bind_ok h
  obtain ⟨insV, _, h⟩ := except_bind_ok h
  obtain ⟨lasJ, _, h⟩ := except_bind_ok h
  obtain ⟨lasV, _, h⟩ := except_bind_ok h
  obtain ⟨nexJ, _, h⟩ := except_bind_ok h
  obtain ⟨nexV, _, h⟩ := except_bind_ok h
  obtain ⟨zJ, hzJ, h⟩ := except_bind_ok h
  obtain ⟨zoning, hzoning, h⟩ := except_bind_ok h
  obtain ⟨zones, hzones, h⟩ := except_bind_ok h
  cases h
  rw [hz1] at hzJ
  cases hzJ
  rw [hz2] at hzoning
  cases hzoning
  have hmap := mapExcept_ok_map (g := MeterCharacteristicsZone.id)
    (k := fun i => "t" ++ toString i)
    (fun a b hab => by
      obtain ⟨uJ, _, hab⟩ := except_bind_ok hab
      obtain ⟨uV, _, hab⟩ := except_bind_ok hab
      cases hab
      rfl) hzones
  simpa [zoneIndexIds] using hmap

/-- Inversion of a successful `Account.de_json` at the `balance` field: the
decoded balance is the negated raw value. -/
theorem Account.de_json_balance {data : Json} {acc : Account}
    (h : Account.de_json data = .ok acc) :
    ∀ {bj : Json} {q : Rat}, data.getKey "balance" = .ok bj →
      pyFloat bj = .ok q → acc.balance = -q := by
  intro bj q h1 h2
  unfold Account.de_json at h
  obtain ⟨mu, _, h⟩ := except_bind_ok h
  obtain ⟨days, _, h⟩ := except_bind_ok h
  obtain ⟨idJ, _, h⟩ := except_bind_ok h
  obtain ⟨idS, _, h⟩ := except_bind_ok h
  obtain ⟨numJ, _, h⟩ := except_bind_ok h
  obtain ⟨numS, _, h⟩ := except_bind_ok h
  obtain ⟨balJ, hbalJ, h⟩ := except_bind_ok h
  obtain ⟨balV, hbalV, h⟩ := except_bind_ok h
  obtain ⟨apJ, _, h⟩ := except_bind_ok h
  obtain ⟨apB, _, h⟩ := except_bind_ok h
  obtain ⟨drJ, _, h⟩ := except_bind_ok h
  obtain ⟨drB, _, h⟩ := except_bind_ok h
  obtain ⟨isaJ, _, h⟩ := except_bind_ok h
  obtain ⟨isaB, _, h⟩ := except_bind_ok h
  obtain ⟨iscJ, _, h⟩ := except_bind_ok h
  obtain ⟨iscB, _, h⟩ := except_bind_ok h
  obtain ⟨hmJ, _, h⟩ := except_bind_ok h
  obtain ⟨hmB, _, h⟩ := except_bind_ok h
  obtain ⟨svJ, _, h⟩ := except_bind_ok h
  obtain ⟨svS, _, h⟩ := except_bind_ok h
  obtain ⟨scJ, _, h⟩ := except_bind_ok h
  obtain ⟨scI, _, h⟩ := except_bind_ok h
  obtain ⟨owJ, _, h⟩ := except_bind_ok h
  obtain ⟨owS, _, h⟩ := except_bind_ok h
  cases h
  rw [h1] at hbalJ
  cases hbalJ
  rw [h2] at hbalV
  cases hbalV
  rfl

/-- Inversion of a successful `BalanceService.de_json` at the monetary sign
conventions: `total` keeps the raw `end_balance`, `balance_actual` negates
the raw `actual_balance`. -/
theorem BalanceService.de_json_sign_fields {data : Json} {bs : BalanceService}
    (h : BalanceService.de_json data = .ok bs) :
    (∀ {bj : Json} {q : Rat}, data.getKey "end_balance" = .ok bj →
      pyFloat bj = .ok q → bs.total = q) ∧
    (∀ {bj : Json} {q : Rat}, data.getKey "actual_balance" = .ok bj →
      pyFloat bj = .ok q → bs.balance_actual = -q) := by
  unfold BalanceService.de_json at h
  obtain ⟨idJ, _, h⟩ := except_bind_ok h
  obtain ⟨idS, _, h⟩ := except_bind_ok h
  obtain ⟨grJ, _, h⟩ := except_bind_ok h
  obtain ⟨grS, _, h⟩ := except_bind_ok h
  obtain ⟨coJ, _, h⟩ := except_bind_ok h
  obtain ⟨coS, _, h⟩ := except_bind_ok h
  obtain ⟨naJ, _, h⟩ := except_bind_ok h
  obtain ⟨naS, _, h⟩ := except_bind_ok h
  obtain ⟨ebJ, hebJ, h⟩ := except_bind_ok h
  obtain ⟨ebV, hebV, h⟩ := except_bind_ok h
  obtain ⟨abJ, habJ, h⟩ := except_bind_ok h
  obtain ⟨abV, habV, h⟩ := except_bind_ok h
  obtain ⟨acJ, _, h⟩ := except_bind_ok h
  obtain ⟨acV, _, h⟩ := except_bind_ok h
  obtain ⟨cpJ, _, h⟩ := except_bind_ok h
  obtain ⟨cpV, _, h⟩ := except_bind_ok h
  obtain ⟨cvJ, _, h⟩ := except_bind_ok h
  obtain ⟨cvV, _, h⟩ := except_bind_ok h
  obtain ⟨cabJ, _, h⟩ := except_bind_ok h
  obtain ⟨cabV, _, h⟩ := except_bind_ok h
  obtain ⟨paJ, _, h⟩ := except_bind_ok h
  obtain ⟨paV, _, h⟩ := except_bind_ok h
  cases h
  refine ⟨?_, ?_⟩
  · intro bj q h1 h2
    rw [h1] at hebJ
    cases hebJ
    rw [h2] at hebV
    cases hebV
    rfl
  · intro bj q h1 h2
    rw [h1] at habJ
    cases habJ
    rw [h2] at habV
    cases habV
    rfl

/-- C6: for every zone-indexed JSON document whose integer field `zoning`
reads as `N`, each zone-producing decoder — `Meter.de_json`,
`ServiceCharge.de_json`, `MeterCharacteristics.de_json` — yields a zone
tuple of exactly `N` elements whose identifiers are `t1` through `tN` in
ascending index order. -/
theorem zoning_zone_enumeration :
    (∀ (data : Json) (account_id : Option String) (m : Meter) (zj : Json) (N : Int),
      Meter.de_json data account_id = .ok m →
      data.getKey "zoning" = .ok zj → pyInt zj = .ok N →
      m.zones.length = N.toNat ∧ m.zones.map MeterZone.id = zoneIndexIds N ∧
      ∀ i (hi : i < m.zones.length),
        (m.zones.get ⟨i, hi⟩).id = "t" ++ toString (i + 1)) ∧
    (∀ (data : Json) (sc : ServiceCharge) (zj : Json) (N : Int),
      ServiceCharge.de_json data = .ok sc →
      data.getKey "zoning" = .ok zj → pyInt zj = .ok N →
      sc.zones.length = N.toNat ∧ sc.zones.map AccrualsServiceZone.id = zoneIndexIds N ∧
      ∀ i (hi : i < sc.zones.length),
        (sc.zones.get ⟨i, hi⟩).id = "t" ++ toString (i + 1)) ∧
    (∀ (data : Json) (roid : Option String) (mc : MeterCharacteristics) (zj : Json) (N : Int),
      MeterCharacteristics.de_json data roid = .ok mc →
      data.getKey "zoning" = .ok zj → pyInt zj = .ok N →
      mc.zones.length = N.toNat ∧ mc.zones.map MeterCharacteristicsZone.id = zoneIndexIds N ∧
      ∀ i (hi : i < mc.zones.length),
        (mc.zones.get ⟨i, hi⟩).id = "t" ++ toString (i + 1)) := by
  refine ⟨?_, ?_, ?_⟩
  · intro data account_id m zj N hm h1 h2
    have hmap := Meter.de_json_zone_ids hm h1 h2
    have hlen : m.zones.length = N.toNat := by
      have := congrArg List.length hmap
      simpa [zoneIndexIds_length] using this
    exact ⟨hlen, hmap, fun i hi => map_eq_zoneIndexIds_get hmap i hi⟩
  · intro data sc zj N hm h1 h2
    have hmap := (ServiceCharge.de_json_sign_and_zones hm).2.2 h1 h2
    have hlen : sc.zones.length = N.toNat := by
      have := congrArg List.length hmap
      simpa [zoneIndexIds_length] using this
    exact ⟨hlen, hmap, fun i hi => map_eq_zoneIndexIds_get hmap i hi⟩
  · intro data roid mc zj N hm h1 h2
    have hmap := MeterCharacteristics.de_json_tariff_zone_ids hm h1 h2
    have hlen : mc.zones.length = N.toNat := by
      have := congrArg List.length hmap
      simpa [zoneIndexIds_length] using this
    exact ⟨hlen, hmap, fun i hi => map_eq_zoneIndexIds_get hmap i hi⟩

/-- Concrete instantiation of `zoning_zone_enumeration`: the meter document
(`zoning = 1`), service-charge document (`zoning = 2`) and
meter-characteristics document (`zoning = 2`) decode to zone lists with
identifiers `t1`, resp. `t1, t2`. -/
theorem zoning_zone_enumeration_witness :
    (Meter.de_json meterJsonMarch (some "acc")).map
        (fun m => m.zones.map MeterZone.id) = .ok (zoneIndexIds 1) ∧
    (ServiceCharge.de_json scJson).map
        (fun sc => sc.zones.map AccrualsServiceZone.id) = .ok (zoneIndexIds 2) ∧
    (MeterCharacteristics.de_json mcJson none).map
        (fun mc => mc.zones.map MeterCharacteristicsZone.id) = .ok (zoneIndexIds 2) := by
  refine ⟨?_, ?_, ?_⟩
  · have hOk : exceptIsOk (Meter.de_json meterJsonMarch (some "acc")) = true := by decide
    cases hm : Meter.de_json meterJsonMarch (some "acc") with
    | error e => rw [hm] at hOk; exact absurd hOk (by simp [exceptIsOk])
    | ok m =>
      have hfacts := zoning_zone_enumeration.1 meterJsonMarch (some "acc") m
        (Json.num 1) 1 hm (by rfl) (by decide)
      simp only [Except.map]
      exact congrArg Except.ok hfacts.2.1
  · have hOk : exceptIsOk (ServiceCharge.de_json scJson) = true := by decide
    cases hm : ServiceCharge.de_json scJson with
    | error e => rw [hm] at hOk; exact absurd hOk (by simp [exceptIsOk])
    | ok sc =>
      have hfacts := zoning_zone_enumeration.2.1 scJson sc
        (Json.num 2) 2 hm (by rfl) (by decide)
      simp only [Except.map]
      exact congrArg Except.ok hfacts.2.1
  · have hOk : exceptIsOk (MeterCharacteristics.de_json mcJson none) = true := by decide
    cases hm : MeterCharacteristics.de_json mcJson none with
    | error e => rw [hm] at hOk; exact absurd hOk (by simp [exceptIsOk])
    | ok mc =>
      have hfacts := zoning_zone_enumeration.2.2 mcJson none mc
        (Json.num 2) 2 hm (by rfl) (by decide)
      simp only [Except.map]
      exact congrArg Except.ok hfacts.2.1

/-- C3: the decoders negate `balance`-labelled monetary fields and keep
`total` / `end_balance`-labelled fields unchanged: `Account.balance` is the
negated raw `balance`, `ServiceCharge.initial` the negated raw
`start_balance`, `BalanceService.balance_actual` the negated raw
`actual_balance`, while `ServiceCharge.total` and `BalanceService.total`
are the raw `end_balance` with no negation. -/
theorem balance_sign_conventions :
    (∀ (data : Json) (acc : Account) (bj : Json) (q : Rat),
      Account.de_json data = .ok acc → data.getKey "balance" = .ok bj →
      pyFloat bj = .ok q → acc.balance = -q) ∧
    (∀ (data : Json) (sc : ServiceCharge) (bj : Json) (q : Rat),
      ServiceCharge.de_json data = .ok sc → data.getKey "start_balance" = .ok bj →
      pyFloat bj = .ok q → sc.initial = -q) ∧
    (∀ (data : Json) (sc : ServiceCharge) (bj : Json) (q : Rat),
      ServiceCharge.de_json data = .ok sc → data.getKey "end_balance" = .ok bj →
      pyFloat bj = .ok q → sc.total = q) ∧
    (∀ (data : Json) (bs : BalanceService) (bj : Json) (q : Rat),
      BalanceService.de_json data = .ok bs → data.getKey "actual_balance" = .ok bj →
      pyFloat bj = .ok q → bs.balance_actual = -q) ∧
    (∀ (data : Json) (bs : BalanceService) (bj : Json) (q : Rat),
      BalanceService.de_json data = .ok bs → data.getKey "end_balance" = .ok bj →
      pyFloat bj = .ok q → bs.total = q) :=
  ⟨fun _ _ _ _ h h1 h2 => Account.de_json_balance h h1 h2,
   fun _ _ _ _ h h1 h2 => (ServiceCharge.de_json_sign_and_zones h).1 h1 h2,
   fun _ _ _ _ h h1 h2 => (ServiceCharge.de_json_sign_and_zones h).2.1 h1 h2,
   fun _ _ _ _ h h1 h2 => (BalanceService.de_json_sign_fields h).2 h1 h2,
   fun _ _ _ _ h h1 h2 => (BalanceService.de_json_sign_fields h).1 h1 h2⟩

/-- Concrete instantiation of `balance_sign_conventions`: the account
document with raw balance 250 decodes to balance −250; the service-charge
document with raw start/end balances 150/170 decodes to initial −150 and
total 170; the balance-service document with raw actual/end balances 90/170
decodes to actual balance −90 and total 170. -/
theorem balance_sign_conventions_witness :
    (Account.de_json accJson).map Account.balance = .ok (-250) ∧
    (ServiceCharge.de_json scJson).map ServiceCharge.initial = .ok (-150) ∧
    (ServiceCharge.de_json scJson).map ServiceCharge.total = .ok 170 ∧
    (BalanceService.de_json bsJson).map BalanceService.balance_actual = .ok (-90) ∧
    (BalanceService.de_json bsJson).map BalanceService.total = .ok 170 := by
  refine ⟨?_, ?_, ?_, ?_, ?_⟩
  · have hOk : exceptIsOk (Account.de_json accJson) = true := by decide
    cases hm : Account.de_json accJson with
    | error e => rw [hm] at hOk; exact absurd hOk (by simp [exceptIsOk])
    | ok acc =>
      have hfact := balance_sign_conventions.1 accJson acc (Json.num 250) 250 hm
        (by rfl) (by decide)
      simp only [Except.map]
      exact congrArg Except.ok hfact
  · have hOk : exceptIsOk (ServiceCharge.de_json scJson) = true := by decide
    cases hm : ServiceCharge.de_json scJson with
    | error e => rw [hm] at hOk; exact absurd hOk (by simp [exceptIsOk])
    | ok sc =>
      have hfact := balance_sign_conventions.2.1 scJson sc (Json.num 150) 150 hm
        (by rfl) (by decide)
      simp only [Except.map]
      exact congrArg Except.ok hfact
  · have hOk : exceptIsOk (ServiceCharge.de_json scJson) = true := by decide
    cases hm : ServiceCharge.de_json scJson with
    | error e => rw [hm] at hOk; exact absurd hOk (by simp [exceptIsOk])
    | ok sc =>
      have hfact := balance_sign_conventions.2.2.1 scJson sc (Json.num 170) 170 hm
        (by rfl) (by decide)
      simp only [Except.map]
      exact congrArg Except.ok hfact
  · have hOk : exceptIsOk (BalanceService.de_json bsJson) = true := by decide
    cases hm : BalanceService.de_json bsJson with
    | error e => rw [hm] at hOk; exact absurd hOk (by simp [exceptIsOk])
    | ok bs =>
      have hfact := balance_sign_conventions.2.2.2.1 bsJson bs (Json.num 90) 90 hm
        (by rfl) (by decide)
      simp only [Except.map]
      exact congrArg Except.ok hfact
  · have hOk : exceptIsOk (BalanceService.de_json bsJson) = true := by decide
    cases hm : BalanceService.de_json bsJson with
    | error e => rw [hm] at hOk; exact absurd hOk (by simp [exceptIsOk])
    | ok bs =>
      have hfact := balance_sign_conventions.2.2.2.2 bsJson bs (Json.num 170) 170 hm
        (by rfl) (by decide)
      simp only [Except.map]
      exact congrArg Except.ok hfact

/-- C7: against a meter whose zone `t1` has `submitted = 90` and
`accepted = 80`, pushing `{"t1": 100.0}` with `ignore_values = false` (on a
day inside the submission period) succeeds and reaches the upstream
submission call with exactly that payload; pushing `{"t1": 70.0}` fails
with a validation error before any upstream call is made (the error return
precludes the upstream payload by construction); and pushing a value for a
zone id not among the meter's zone ids always fails with a validation
error, whatever the `ignore_periods` / `ignore_values` flags and the day. -/
theorem push_indications_validation :
    Meter.async_push_indications exampleMeterC7 true [("t1", 100)] false false 15
      = .ok ⟨"acc1", "m1", [("t1", 100)]⟩ ∧
    Meter.async_push_indications exampleMeterC7 true [("t1", 70)] false false 15
      = .error (.espException
          "submitted value for zone t1 is less than zone max value") ∧
    (∀ (m : Meter) (aid zid : String) (v : Rat) (ip iv : Bool) (d : Int),
      m.account_id = some aid → ¬ zid ∈ m.zone_ids →
      Meter.async_push_indications m true [(zid, v)] ip iv d
        = .error (.espException ("invalid zones provided: " ++ zid))) := by
  refine ⟨by decide, by decide, ?_⟩
  intro m aid zid v ip iv d h1 h2
  have hc : m.zone_ids.contains zid = false := by simpa using h2
  have hi : String.intercalate "," [zid] = zid := rfl
  unfold Meter.async_push_indications
  rw [h1]
  simp [hc, hi, h2]

/-- Concrete instantiation of the invalid-zone branch of
`push_indications_validation`: pushing a value for the unknown zone `t9`
fails with a validation error even with both ignore flags set. -/
theorem push_indications_validation_witness :
    Meter.async_push_indications exampleMeterC7 true [("t9", 100)] true true 15
      = .error (.espException "invalid zones provided: t9") :=
  push_indications_validation.2.2 exampleMeterC7 "acc1" "t9" 100 true true 15
    rfl (by decide)

/-- Every month length accepted by the `datetime.date` constructor is
positive. -/
theorem daysInMonth_pos (y m : Int) : 1 ≤ daysInMonth y m := by
  unfold daysInMonth
  split
  · split <;> omega
  · split <;> omega

/-- C9: `async_get_payments` called without explicit period bounds defaults
the window to the first day of the month exactly 3 months before today's
month (borrowing from the previous year when today's month is January,
February or March) through today, transmitted as `MM.YYYY` strings in the
`period_from` / `period_to` query parameters. -/
theorem default_payment_period :
    ∀ (today : PyDate) (account_id : String) (limit : Int),
      1 ≤ today.month → today.month ≤ 12 → 1 ≤ today.day →
      today.day ≤ daysInMonth today.year today.month →
      2 ≤ today.year → today.year ≤ 9999 →
      ∃ ps : PyDate,
        async_get_payments_query account_id today none none limit =
          .ok [("account_id", account_id),
               ("period_from", periodParamString ps),
               ("period_to", periodParamString today),
               ("limit", toString limit),
               ("offset", "0")] ∧
        ps.day = 1 ∧
        ps.year * 12 + ps.month = today.year * 12 + today.month - 3 := by
  intro today account_id limit h1 h2 h3 h4 h5 h6
  by_cases hm : today.month < (4 : Int)
  · refine ⟨⟨today.year - 1, 12 + today.month - 3, 1⟩, ?_, rfl, by dsimp only; omega⟩
    have hd : pyDate (today.year - 1) (12 + today.month - 3) 1 =
        .ok ⟨today.year - 1, 12 + today.month - 3, 1⟩ := by
      unfold pyDate
      rw [if_pos]
      have := daysInMonth_pos (today.year - 1) (12 + today.month - 3)
      refine ⟨by omega, by omega, by omega, by omega, by omega, by omega⟩
    unfold async_get_payments_query
    dsimp only
    rw [if_pos hm, hd]
    rfl
  · refine ⟨⟨today.year, today.month - 3, 1⟩, ?_, rfl, by dsimp only; omega⟩
    have hd : pyDate today.year (today.month - 3) 1 =
        .ok ⟨today.year, today.month - 3, 1⟩ := by
      unfold pyDate
      rw [if_pos]
      have := daysInMonth_pos today.year (today.month - 3)
      refine ⟨by omega, by omega, by omega, by omega, by omega, by omega⟩
    unfold async_get_payments_query
    dsimp only
    rw [if_neg hm, hd]
    rfl

/-- Concrete instantiation of `default_payment_period` at 2024-02-10 (a
month that borrows from the previous year): the default window is
transmitted as `period_from = "11.2023"`, `period_to = "02.2024"`. -/
theorem default_payment_period_witness :
    exceptIsOk (async_get_payments_query "acc1" ⟨2024, 2, 10⟩ none none 10) = true ∧
    async_get_payments_query "acc1" ⟨2024, 2, 10⟩ none none 10 =
      .ok [("account_id", "acc1"), ("period_from", "11.2023"),
           ("period_to", "02.2024"), ("limit", "10"), ("offset", "0")] := by
  constructor
  · obtain ⟨ps, hq, -, -⟩ := default_payment_period ⟨2024, 2, 10⟩ "acc1" 10
      (by decide) (by decide) (by decide) (by decide) (by decide) (by decide)
    rw [hq]
    rfl
  · decide

/-- Looking up a key that an association-list update replaced gives the new
value. -/
theorem lookup_map_replace (l : List (String × String)) (k v : String)
    (hany : l.any (fun p => p.1 == k) = true) :
    (l.map (fun p => if p.1 == k then (k, v) else p)).lookup k = some v := by
  induction l with
  | nil => simp at hany
  | cons p ps ih =>
    by_cases hp : (p.1 == k) = true
    · rw [List.map_cons, if_pos hp]
      simp [List.lookup]
    · rw [List.map_cons, if_neg hp]
      simp only [List.any_cons, hp, Bool.false_or] at hany
      have hk : (k == p.1) = false := by
        simp only [beq_eq_false_iff_ne, ne_eq]
        intro hh
        exact hp (by simp [beq_iff_eq, hh.symm])
      simp only [List.lookup, hk]
      exact ih hany

/-- Looking up a key appended to an association list that did not contain it
gives the appended value. -/
theorem lookup_append_new (l : List (String × String)) (k v : String)
    (hany : l.any (fun p => p.1 == k) = false) :
    (l ++ [(k, v)]).lookup k = some v := by
  induction l with
  | nil => simp [List.lookup]
  | cons p ps ih =>
    simp only [List.any_cons, Bool.or_eq_false_iff] at hany
    have hk : (k == p.1) = false := by
      simp only [beq_eq_false_iff_ne, ne_eq]
      intro hh
      have := hany.1
      rw [beq_eq_false_iff_ne] at this
      exact this hh.symm
    simp only [List.cons_append, List.lookup, hk]
    exact ih hany.2

/-- `dict[key] = value` followed by `dict[key]` yields `value`. -/
theorem dictSet_lookup (l : List (String × String)) (k v : String) :
    (dictSet l k v).lookup k = some v := by
  unfold dictSet
  cases hb : l.any (fun p => p.1 == k) with
  | true => exact lookup_map_replace l k v hb
  | false => exact lookup_append_new l k v hb

/-- C10: `_get_request_headers` never raises `UnauthenticatedException` —
its guard compares the boolean `is_token_expired` with `None` and is false
in every state — so every authenticated request gets an `Authorization`
header of the form `"<token_type> <access_token>"`, even when the stored
access token is still `None` (yielding the literal header value
`"Bearer None"`). -/
theorem headers_always_attach_authorization :
    ∀ (st : ApiTokenState) (now : Rat) (hs : List (String × String)),
      (∀ authenticated, exceptIsOk (get_request_headers st now authenticated hs) = true) ∧
      (get_request_headers st now true hs).map (fun r => r.lookup "Authorization") =
        .ok (some (st.access_token_type ++ " " ++ pyStrOfOption st.access_token)) ∧
      (get_request_headers ⟨none, "Bearer", -1⟩ now true hs).map
          (fun r => r.lookup "Authorization") = .ok (some "Bearer None") := by
  intro st now hs
  refine ⟨?_, ?_, ?_⟩
  · intro authenticated
    cases authenticated <;> rfl
  · exact congrArg Except.ok (dictSet_lookup _ _ _)
  · exact congrArg Except.ok (dictSet_lookup _ _ _)

/-- C5: with no explicitly fixed login type, a numeric username selects
`login_type = "account"`; if that first attempt fails, exactly one second
attempt is made with `login_type = "contact"` and its outcome is surfaced;
a non-numeric username, or an explicitly fixed login type, gets no fallback
attempt — the first failure is wrapped into an authentication error and
surfaced directly. -/
theorem authenticate_login_type_fallback {α : Type} :
    ∀ (username : String) (login : String → Except PyErr α),
      (pyIsNumeric username = true →
        (∀ v, login LOGIN_TYPE_ACCOUNT = .ok v →
          async_authenticate none username login = (.ok v, [LOGIN_TYPE_ACCOUNT])) ∧
        (∀ e, login LOGIN_TYPE_ACCOUNT = .error e →
          async_authenticate none username login =
            (login LOGIN_TYPE_CONTACT, [LOGIN_TYPE_ACCOUNT, LOGIN_TYPE_CONTACT]))) ∧
      (pyIsNumeric username = false →
        ∀ e, login LOGIN_TYPE_CONTACT = .error e →
          async_authenticate none username login =
            (.error (.espException ("Error during authentication: " ++ e.describe)),
             [LOGIN_TYPE_CONTACT])) ∧
      (∀ (t : String) (e : PyErr), login t = .error e →
        async_authenticate (some t) username login =
          (.error (.espException ("Error during authentication: " ++ e.describe)),
           [t])) := by
  intro username login
  refine ⟨fun hnum => ⟨?_, ?_⟩, fun hnum e he => ?_, fun t e he => ?_⟩
  · intro v hv
    simp only [async_authenticate, hnum, reduceIte, hv]
  · intro e he
    simp only [async_authenticate, hnum, reduceIte, he]
    rfl
  · have hp : (if pyIsNumeric username = true then (LOGIN_TYPE_ACCOUNT, true)
        else (LOGIN_TYPE_CONTACT, false)) = (LOGIN_TYPE_CONTACT, false) := by
      rw [hnum]
      rfl
    simp only [async_authenticate, hp, he]
    rfl
  · simp only [async_authenticate, he, reduceIte]

/-- Concrete instantiation of `authenticate_login_type_fallback`: the
numeric username `"79991234567"` tries `account` first, and when that login
fails the single `contact` fallback succeeds. -/
theorem authenticate_login_type_fallback_witness :
    async_authenticate none "79991234567"
        (fun t => if t = LOGIN_TYPE_ACCOUNT
          then (.error .externalError : Except PyErr Nat) else .ok 0)
      = (.ok 0, [LOGIN_TYPE_ACCOUNT, LOGIN_TYPE_CONTACT]) := by
  have h := ((authenticate_login_type_fallback "79991234567"
      (fun t => if t = LOGIN_TYPE_ACCOUNT
        then (.error .externalError : Except PyErr Nat) else .ok 0)).1
    (by decide)).2 .externalError (by decide)
  rw [h]
  decide

/-- C2, counterexample: a transport error (`"invalid response status"`, an
`EnergosbytPlusException` that is not authentication-class) does trigger a
re-authentication in `with_auto_auth` — the claim says a failure of any
non-auth kind propagates immediately without re-authentication, but the
wrapper counts one `authenticate()` call here. -/
theorem with_auto_auth_catches_nonauth :
    (PyErr.espException "invalid response status (500 != 200)").isAuthClass = false ∧
    (with_auto_auth (.ok ()) (fun _ =>
        (.error (PyErr.espException "invalid response status (500 != 200)")
          : Except PyErr Nat))).2.1 = 1 := by
  decide

/-- C2, amended: `with_auto_auth` intercepts every
`EnergosbytPlusException` — the client's base error class, which also
covers transport, upstream and validation failures — calling
`authenticate()` exactly once and retrying the wrapped operation exactly
once more (never a second retry: at most two invocations and one
authentication in every execution); only an exception outside the
`EnergosbytPlusException` hierarchy propagates immediately without
re-authentication. -/
theorem with_auto_auth_single_retry {α : Type} :
    ∀ (auth : Except PyErr Unit) (op : Nat → Except PyErr α),
      ((with_auto_auth auth op).2.1 ≤ 1 ∧ (with_auto_auth auth op).2.2 ≤ 2) ∧
      (∀ v, op 1 = .ok v → with_auto_auth auth op = (.ok v, 0, 1)) ∧
      (∀ e, op 1 = .error e → e.isEnergosbytPlusException = true → auth = .ok () →
        with_auto_auth auth op = (op 2, 1, 2)) ∧
      (∀ e ae, op 1 = .error e → e.isEnergosbytPlusException = true →
        auth = .error ae → with_auto_auth auth op = (.error ae, 1, 1)) ∧
      (∀ e, op 1 = .error e → e.isEnergosbytPlusException = false →
        with_auto_auth auth op = (.error e, 0, 1)) := by
  intro auth op
  refine ⟨?_, fun v hv => ?_, fun e he hesp ha => ?_, fun e ae he hesp ha => ?_,
    fun e he hesp => ?_⟩
  · cases hv : op 1 with
    | ok v =>
      simp only [with_auto_auth, hv]
      exact ⟨by decide, by decide⟩
    | error e =>
      by_cases hesp : e.isEnergosbytPlusException = true
      · cases auth with
        | ok u =>
          simp only [with_auto_auth, hv, hesp, reduceIte]
          exact ⟨by decide, by decide⟩
        | error ae =>
          simp only [with_auto_auth, hv, hesp, reduceIte]
          exact ⟨by decide, by decide⟩
      · simp only [Bool.not_eq_true] at hesp
        simp only [with_auto_auth, hv, hesp, reduceIte]
        exact ⟨Nat.zero_le 1, Nat.le_succ 1⟩
  · simp only [with_auto_auth, hv]
  · simp only [with_auto_auth, he, hesp, ha, reduceIte]
  · simp only [with_auto_auth, he, hesp, ha, reduceIte]
  · simp only [with_auto_auth, he, hesp, reduceIte]
    rfl

/-- Concrete instantiation of `with_auto_auth_single_retry`: an operation
that fails once with an upstream error and then succeeds is retried once
after one authentication, and the wrapped call succeeds. -/
theorem with_auto_auth_single_retry_witness :
    with_auto_auth (.ok ()) (fun k => if k = 1
        then (.error (PyErr.espException "request error 5") : Except PyErr Nat)
        else .ok 7) = (.ok 7, 1, 2) := by
  have h := (with_auto_auth_single_retry (.ok ()) (fun k => if k = 1
      then (.error (PyErr.espException "request error 5") : Except PyErr Nat)
      else .ok 7)).2.2.1 (PyErr.espException "request error 5")
    (by decide) (by decide) rfl
  rw [h]
  decide

/-- C8: within one refresh cycle of `async_refresh_api_data`, an exception
raised by an individual update task is converted to "no entities produced"
for that task only: every scheduled task still completes and appears in the
cycle's trace, a raising task removes nothing from the other tasks' batch,
each platform's batch-add callback receives exactly its platform's combined
new entities, is invoked only when that batch is non-empty, and every
batch-add event comes after every task-completion event of the cycle. -/
theorem orchestrator_partial_failure_isolation {π ε : Type} :
    ∀ (platform_tasks : List (π × List (Except PyErr (Option (List ε))))),
      (∀ e, wrap_update_task (Except.error e : Except PyErr (Option (List ε))) = none) ∧
      (∀ pt, pt ∈ platform_tasks → ∀ i t, pt.2.get? i = some t →
        OrchEvent.taskCompleted pt.1 i (wrap_update_task t)
          ∈ async_refresh_api_data platform_tasks) ∧
      (∀ (ts1 ts2 : List (Except PyErr (Option (List ε)))) (e : PyErr),
        collectNewEntities (ts1 ++ .error e :: ts2) = collectNewEntities (ts1 ++ ts2)) ∧
      (∀ p ents, OrchEvent.entitiesAdded p ents ∈ async_refresh_api_data platform_tasks →
        ents ≠ [] ∧ ∃ ts, (p, ts) ∈ platform_tasks ∧ ents = collectNewEntities ts) ∧
      (∀ i j p ents q idx r,
        (async_refresh_api_data platform_tasks).get? i
          = some (OrchEvent.entitiesAdded p ents) →
        (async_refresh_api_data platform_tasks).get? j
          = some (OrchEvent.taskCompleted q idx r) →
        j < i) := by
  intro platform_tasks
  refine ⟨fun e => rfl, ?_, ?_, ?_, ?_⟩
  · intro pt hpt i t ht
    unfold async_refresh_api_data
    refine List.mem_append_left _ ?_
    rw [List.mem_flatMap]
    refine ⟨pt, hpt, ?_⟩
    rw [List.mem_map]
    refine ⟨(i, t), ?_, rfl⟩
    rw [List.mem_enum_iff_getElem?]
    simpa using ht
  · intro ts1 ts2 e
    unfold collectNewEntities
    simp only [List.map_append, List.map_cons, List.foldl_append, List.foldl_cons]
    rfl
  · intro p ents hmem
    unfold async_refresh_api_data at hmem
    rw [List.mem_append] at hmem
    cases hmem with
    | inl hA =>
      rw [List.mem_flatMap] at hA
      obtain ⟨pt, -, hA⟩ := hA
      rw [List.mem_map] at hA
      obtain ⟨it, -, hA⟩ := hA
      exact OrchEvent.noConfusion hA
    | inr hB =>
      rw [List.mem_flatMap] at hB
      obtain ⟨pt, hpt, hB⟩ := hB
      by_cases hemp : (collectNewEntities pt.2).isEmpty = true
      · rw [if_pos hemp] at hB
        exact absurd hB (List.not_mem_nil _)
      · rw [if_neg hemp] at hB
        rw [List.mem_singleton] at hB
        cases hB
        refine ⟨by simpa using hemp, pt.2, ?_, rfl⟩
        simpa using hpt
  · intro i j p ents q idx r hi hj
    unfold async_refresh_api_data at hi hj
    by_cases hjlen : j < (platform_tasks.flatMap fun pt =>
        pt.2.enum.map fun it =>
          OrchEvent.taskCompleted pt.1 it.1 (wrap_update_task it.2)).length
    · by_cases hilen : i < (platform_tasks.flatMap fun pt =>
          pt.2.enum.map fun it =>
            OrchEvent.taskCompleted pt.1 it.1 (wrap_update_task it.2)).length
      · exfalso
        rw [List.get?_eq_getElem?, List.getElem?_append_left hilen,
          List.getElem?_eq_getElem hilen] at hi
        have hmem := List.getElem_mem hilen
        rw [(Option.some.inj hi)] at hmem
        rw [List.mem_flatMap] at hmem
        obtain ⟨pt, -, hmem⟩ := hmem
        rw [List.mem_map] at hmem
        obtain ⟨it, -, hmem⟩ := hmem
        exact OrchEvent.noConfusion hmem
      · omega
    · exfalso
      push_neg at hjlen
      rw [List.get?_eq_getElem?, List.getElem?_append_right hjlen] at hj
      cases hg : (platform_tasks.flatMap fun pt =>
          let all_new_entities := collectNewEntities pt.2
          if all_new_entities.isEmpty then []
          else [OrchEvent.entitiesAdded pt.1 all_new_entities])[
            j - (platform_tasks.flatMap fun pt =>
              pt.2.enum.map fun it =>
                OrchEvent.taskCompleted pt.1 it.1 (wrap_update_task it.2)).length]? with
      | none => rw [hg] at hj; exact Option.noConfusion hj
      | some x =>
        rw [hg] at hj
        have hxmem := List.getElem?_mem hg
        rw [Option.some.inj hj] at hxmem
        rw [List.mem_flatMap] at hxmem
        obtain ⟨pt, -, hxmem⟩ := hxmem
        by_cases hemp : (collectNewEntities pt.2).isEmpty = true
        · simp only [hemp, if_pos] at hxmem
          exact absurd hxmem (List.not_mem_nil _)
        · simp only [if_neg hemp] at hxmem
          rw [List.mem_singleton] at hxmem
          exact OrchEvent.noConfusion hxmem

/-- Concrete instantiation of `orchestrator_partial_failure_isolation`: in a
cycle where the second `sensor` task raises, that task still completes in
the trace, converted to "no entities produced". -/
theorem orchestrator_partial_failure_isolation_witness :
    OrchEvent.taskCompleted "sensor" 1
        (wrap_update_task (Except.error (PyErr.espException "boom")))
      ∈ async_refresh_api_data
          [("sensor", [Except.ok (some ["e1"]),
            Except.error (PyErr.espException "boom"),
            (Except.ok none : Except PyErr (Option (List String)))]),
           ("binary_sensor", [Except.ok (some ["e2"])])] :=
  (orchestrator_partial_failure_isolation _).2.1
    ("sensor", [Except.ok (some ["e1"]), Except.error (PyErr.espException "boom"),
      Except.ok none])
    (by decide) 1 (Except.error (PyErr.espException "boom")) (by rfl)

/-- A successful indexed lookup yields a member of the list. -/
theorem mem_of_get?_eq {β : Type} {l : List β} {i : Nat} {a : β}
    (h : l.get? i = some a) : a ∈ l := by
  rw [List.get?_eq_getElem?] at h
  obtain ⟨hl, he⟩ := List.getElem?_eq_some_iff.mp h
  exact he ▸ List.getElem_mem hl

/-- A successful indexed lookup is within bounds. -/
theorem get?_len_lt {β : Type} {l : List β} {i : Nat} {a : β}
    (h : l.get? i = some a) : i < l.length := by
  rw [List.get?_eq_getElem?] at h
  exact (List.getElem?_eq_some_iff.mp h).1

/-- Every member of a list is at some index. -/
theorem exists_get?_of_mem {β : Type} {l : List β} {a : β} (h : a ∈ l) :
    ∃ i, l.get? i = some a := by
  obtain ⟨i, hi, he⟩ := List.getElem_of_mem h
  exact ⟨i, by rw [List.get?_eq_getElem?, List.getElem?_eq_getElem hi, he]⟩

/-- The first caller to arrive at an empty coalescer becomes the leader: it
installs future `0`, invokes the fetch once, and every other caller is
still arriving. -/
theorem coalStep_first {α : Type} (out : Except PyErr α) (n i0 : Nat) (h : i0 < n) :
    CoalMid α (coalStep out (coalInit α n) i0) ∧
    (coalStep out (coalInit α n) i0).procs.get? i0 = some (ProcState.leading 0) ∧
    (∀ i, i ≠ i0 → (coalStep out (coalInit α n) i0).procs.get? i
      = (coalInit α n).procs.get? i) ∧
    (coalStep out (coalInit α n) i0).procs.length = n := by
  have hget : (List.replicate n (ProcState.start : ProcState α)).get? i0
      = some ProcState.start := by
    rw [List.get?_eq_getElem?]
    simp [List.getElem?_replicate, h]
  have hstep : coalStep out (coalInit α n) i0 =
      { slot := some 0, futures := fun _ => none, nextFid := 1, fetchCount := 1,
        procs := (List.replicate n (ProcState.start : ProcState α)).set i0
          (ProcState.leading 0) } := by
    simp only [coalStep, coalInit, hget, Nat.zero_add]
  rw [hstep]
  have hlead : ((List.replicate n (ProcState.start : ProcState α)).set i0
      (ProcState.leading 0)).get? i0 = some (ProcState.leading 0) := by
    rw [List.get?_eq_getElem?]
    simp [List.getElem?_set_self, h]
  refine ⟨⟨rfl, rfl, rfl, fun j => rfl, ?_, ⟨i0, hlead⟩⟩, hlead, ?_, by simp⟩
  · intro p hp
    rcases List.mem_or_eq_of_mem_set hp with h1 | h2
    · exact Or.inl (List.eq_of_mem_replicate h1)
    · exact Or.inr (Or.inl h2)
  · intro i hne
    rw [List.get?_eq_getElem?, List.getElem?_set_ne (fun hh => hne hh.symm),
      ← List.get?_eq_getElem?]
    rfl

/-- While the leader's fetch is in flight, every further arriving caller
finds the in-flight future in the dictionary and subscribes to it; the
invariant is preserved and no new caller state is created. -/
theorem coalRun_arrivals {α : Type} (out : Except PyErr α) :
    ∀ (l : List Nat) (s : CoalState α),
      CoalMid α s →
      (∀ i ∈ l, s.procs.get? i = some ProcState.start) →
      l.Nodup →
      CoalMid α (coalRun out s l) ∧
      (∀ i, (coalRun out s l).procs.get? i = some ProcState.start →
        s.procs.get? i = some ProcState.start ∧ i ∉ l) ∧
      (coalRun out s l).procs.length = s.procs.length := by
  intro l
  induction l with
  | nil =>
    intro s hmid hstart hnd
    exact ⟨hmid, fun i hi => ⟨hi, by simp⟩, rfl⟩
  | cons i0 tl ih =>
    intro s hmid hstart hnd
    have hget : s.procs.get? i0 = some ProcState.start := hstart i0 (by simp)
    have hstep : coalStep out s i0 =
        { s with procs := s.procs.set i0 (ProcState.waiting 0) } := by
      simp only [coalStep, hget, hmid.slot]
    have hi0len : i0 < s.procs.length := get?_len_lt hget
    have hmid' : CoalMid α (coalStep out s i0) := by
      rw [hstep]
      refine ⟨hmid.slot, hmid.nextFid, hmid.fetch, hmid.futures, ?_, ?_⟩
      · intro p hp
        rcases List.mem_or_eq_of_mem_set hp with h1 | h2
        · exact hmid.procs p h1
        · exact Or.inr (Or.inr h2)
      · obtain ⟨iw, hiw⟩ := hmid.lead
        have hne : i0 ≠ iw := by
          intro hh
          rw [← hh, hget] at hiw
          exact ProcState.noConfusion (Option.some.inj hiw)
        refine ⟨iw, ?_⟩
        rw [List.get?_eq_getElem?, List.getElem?_set_ne hne, ← List.get?_eq_getElem?]
        exact hiw
    have hnodup := List.nodup_cons.mp hnd
    have hstart' : ∀ i ∈ tl, (coalStep out s i0).procs.get? i
        = some ProcState.start := by
      intro i hi
      have hne : i0 ≠ i := fun hh => hnodup.1 (hh ▸ hi)
      rw [hstep]
      show (s.procs.set i0 (ProcState.waiting 0)).get? i = _
      rw [List.get?_eq_getElem?, List.getElem?_set_ne hne, ← List.get?_eq_getElem?]
      exact hstart i (by simp [hi])
    obtain ⟨hm2, htrack, hlen⟩ := ih (coalStep out s i0) hmid' hstart' hnodup.2
    have hruncons : coalRun out s (i0 :: tl) = coalRun out (coalStep out s i0) tl := rfl
    refine ⟨hruncons ▸ hm2, ?_, ?_⟩
    · intro i hfin
      rw [hruncons] at hfin
      obtain ⟨hmidlevel, hnotl⟩ := htrack i hfin
      have hne : i ≠ i0 := by
        intro hh
        rw [hh, hstep] at hmidlevel
        have : (s.procs.set i0 (ProcState.waiting 0)).get? i0
            = some (ProcState.waiting 0) := by
          rw [List.get?_eq_getElem?]
          simp [List.getElem?_set_self, hi0len]
        rw [this] at hmidlevel
        exact ProcState.noConfusion (Option.some.inj hmidlevel)
      constructor
      · rw [hstep] at hmidlevel
        rw [List.get?_eq_getElem?] at hmidlevel ⊢
        rwa [List.getElem?_set_ne (fun hh => hne hh.symm)] at hmidlevel
      · simp only [List.mem_cons, not_or]
        exact ⟨hne, hnotl⟩
    · rw [hruncons, hlen, hstep]
      simp

/-- After every caller has arrived, each cooperative step preserves the
post-arrival invariant: the leader resolves future `0` with the fetch
outcome and clears the dictionary slot; waiters wake only on the resolved
future and return its outcome; no step invokes the fetch again. -/
theorem coalStep_preserves_end {α : Type} (out : Except PyErr α)
    (s : CoalState α) (i : Nat) (he : CoalEnd α out s) :
    CoalEnd α out (coalStep out s i) := by
  cases hget : s.procs.get? i with
  | none =>
    have hstep : coalStep out s i = s := by
      simp only [coalStep, hget]
    rwa [hstep]
  | some p =>
    have hpmem : p ∈ s.procs := mem_of_get?_eq hget
    rcases he.procs p hpmem with h1 | h2 | h3
    · subst h1
      have hstep : coalStep out s i =
          { s with
            slot := none
            futures := fun j => if j = 0 then some out else s.futures j
            procs := s.procs.set i (ProcState.done out) } := by
        simp only [coalStep, hget]
      rw [hstep]
      refine ⟨he.fetch, ?_, Or.inl rfl, ?_, ?_⟩
      · right; simp
      · intro p hp
        rcases List.mem_or_eq_of_mem_set hp with hh | hh
        · exact he.procs p hh
        · exact Or.inr (Or.inr hh)
      · intro hc
        exact Option.noConfusion hc
    · subst h2
      rcases he.futures0 with hf | hf
      · have hstep : coalStep out s i = s := by
          simp only [coalStep, hget, hf]
        rwa [hstep]
      · have hstep : coalStep out s i
            = { s with procs := s.procs.set i (ProcState.done out) } := by
          simp only [coalStep, hget, hf]
        rw [hstep]
        refine ⟨he.fetch, he.futures0, he.slot, ?_, ?_⟩
        · intro p hp
          rcases List.mem_or_eq_of_mem_set hp with hh | hh
          · exact he.procs p hh
          · exact Or.inr (Or.inr hh)
        · intro hs
          obtain ⟨iw, hiw⟩ := he.slot_lead hs
          have hne : i ≠ iw := by
            intro hh
            rw [← hh, hget] at hiw
            exact ProcState.noConfusion (Option.some.inj hiw)
          refine ⟨iw, ?_⟩
          rw [List.get?_eq_getElem?, List.getElem?_set_ne hne, ← List.get?_eq_getElem?]
          exact hiw
    · subst h3
      have hstep : coalStep out s i = s := by
        simp only [coalStep, hget]
      rwa [hstep]

/-- The post-arrival invariant is preserved by any schedule, and the caller
count never changes. -/
theorem coalRun_preserves_end {α : Type} (out : Except PyErr α) :
    ∀ (l : List Nat) (s : CoalState α), CoalEnd α out s →
      CoalEnd α out (coalRun out s l) := by
  intro l
  induction l with
  | nil => intro s he; exact he
  | cons i tl ih =>
    intro s he
    exact ih (coalStep out s i) (coalStep_preserves_end out s i he)

/-- From a completed round (empty slot), a freshly arriving caller starts a
new fetch: its step increments the fetch count. -/
theorem coalStep_fresh {α : Type} (out2 : Except PyErr α) (s : CoalState α)
    (hslot : s.slot = none) :
    (coalStep out2 { s with procs := s.procs ++ [ProcState.start] }
      s.procs.length).fetchCount = s.fetchCount + 1 := by
  have hget2 : (s.procs ++ [ProcState.start]).get? s.procs.length
      = some ProcState.start := by
    rw [List.get?_eq_getElem?]
    exact List.getElem?_concat_length _ _
  simp only [coalStep]
  rw [hget2, hslot]

/-- C4: when all `n` callers of the collective-fetch classmethod arrive
while the first caller's fetch is in flight (the schedule starts with each
caller's arrival step, in any order, followed by an arbitrary cooperative
schedule), then once every caller has returned: the underlying fetch ran
exactly once, every caller observed the same outcome `out` (the same value
on success, the same exception on failure), the dictionary slot has been
removed, and a caller arriving after completion starts a second, fresh
fetch — no result is cached across rounds. -/
theorem coalescer_single_fetch {α : Type} :
    ∀ (n : Nat) (out : Except PyErr α) (arrival rest : List Nat),
      0 < n → arrival.Perm (List.range n) →
      (∀ p ∈ (coalRun out (coalInit α n) (arrival ++ rest)).procs,
        ∃ r, p = ProcState.done r) →
      (coalRun out (coalInit α n) (arrival ++ rest)).fetchCount = 1 ∧
      (∀ p ∈ (coalRun out (coalInit α n) (arrival ++ rest)).procs,
        p = ProcState.done out) ∧
      (coalRun out (coalInit α n) (arrival ++ rest)).slot = none ∧
      (∀ out2 : Except PyErr α,
        (coalStep out2
          { coalRun out (coalInit α n) (arrival ++ rest) with
            procs := (coalRun out (coalInit α n) (arrival ++ rest)).procs
              ++ [ProcState.start] }
          (coalRun out (coalInit α n) (arrival ++ rest)).procs.length).fetchCount
          = 2) := by
  intro n out arrival rest hn hperm hdone
  obtain ⟨i0, tl, harr⟩ : ∃ i0 tl, arrival = i0 :: tl := by
    cases arrival with
    | nil =>
      exfalso
      have := hperm.length_eq
      simp at this
      omega
    | cons a l => exact ⟨a, l, rfl⟩
  subst harr
  have hnd : (i0 :: tl).Nodup := hperm.nodup_iff.mpr (List.nodup_range n)
  have hmemlt : ∀ i ∈ i0 :: tl, i < n := by
    intro i hi
    exact List.mem_range.mp (hperm.mem_iff.mp hi)
  have hi0 : i0 < n := hmemlt i0 (by simp)
  obtain ⟨hmid1, hlead1, hunch1, hlen1⟩ := coalStep_first out n i0 hi0
  have hstart1 : ∀ i ∈ tl, (coalStep out (coalInit α n) i0).procs.get? i
      = some ProcState.start := by
    intro i hi
    have hne : i ≠ i0 := fun hh => (List.nodup_cons.mp hnd).1 (hh ▸ hi)
    rw [hunch1 i hne]
    have hilt : i < n := hmemlt i (by simp [hi])
    simp [coalInit, List.get?_eq_getElem?, List.getElem?_replicate, hilt]
  obtain ⟨hmid2, htrack2, hlen2⟩ := coalRun_arrivals out tl
    (coalStep out (coalInit α n) i0) hmid1 hstart1 (List.nodup_cons.mp hnd).2
  have hlen2' : (coalRun out (coalStep out (coalInit α n) i0) tl).procs.length
      = n := by rw [hlen2, hlen1]
  have hnostart : ∀ p ∈ (coalRun out (coalStep out (coalInit α n) i0) tl).procs,
      p ≠ ProcState.start := by
    intro p hp hps
    subst hps
    obtain ⟨i, hgi⟩ := exists_get?_of_mem hp
    obtain ⟨hmidlevel, hnotl⟩ := htrack2 i hgi
    have hne : i ≠ i0 := by
      intro hh
      rw [hh, hlead1] at hmidlevel
      exact ProcState.noConfusion (Option.some.inj hmidlevel)
    have hilt : i < n := by
      have := get?_len_lt hgi
      rwa [hlen2'] at this
    rcases List.mem_cons.mp (hperm.mem_iff.mpr (List.mem_range.mpr hilt)) with hh | hh
    · exact hne hh
    · exact hnotl hh
  have hend2 : CoalEnd α out (coalRun out (coalStep out (coalInit α n) i0) tl) := by
    refine ⟨hmid2.fetch, Or.inl (hmid2.futures 0), Or.inr hmid2.slot, ?_, ?_⟩
    · intro p hp
      rcases hmid2.procs p hp with h1 | h2 | h3
      · exact absurd h1 (hnostart p hp)
      · exact Or.inl h2
      · exact Or.inr (Or.inl h3)
    · intro hs
      exact hmid2.lead
  have hend3 : CoalEnd α out (coalRun out
      (coalRun out (coalStep out (coalInit α n) i0) tl) rest) :=
    coalRun_preserves_end out rest _ hend2
  have hsplit : coalRun out (coalInit α n) ((i0 :: tl) ++ rest)
      = coalRun out (coalRun out (coalStep out (coalInit α n) i0) tl) rest := by
    simp [coalRun, List.foldl_append]
  rw [hsplit] at hdone ⊢
  have hall : ∀ p ∈ (coalRun out (coalRun out (coalStep out (coalInit α n) i0) tl)
      rest).procs, p = ProcState.done out := by
    intro p hp
    obtain ⟨r, hr⟩ := hdone p hp
    rcases hend3.procs p hp with h1 | h2 | h3
    · rw [hr] at h1
      exact absurd h1 (by simp)
    · rw [hr] at h2
      exact absurd h2 (by simp)
    · exact h3
  have hslot : (coalRun out (coalRun out (coalStep out (coalInit α n) i0) tl)
      rest).slot = none := by
    rcases hend3.slot with h | h
    · exact h
    · obtain ⟨iw, hiw⟩ := hend3.slot_lead h
      have := hall _ (mem_of_get?_eq hiw)
      exact absurd this (by simp)
  refine ⟨hend3.fetch, hall, hslot, ?_⟩
  intro out2
  have hfresh := coalStep_fresh out2
    (coalRun out (coalRun out (coalStep out (coalInit α n) i0) tl) rest) hslot
  rw [hfresh, hend3.fetch]

/-- Concrete instantiation of `coalescer_single_fetch`: three callers arrive
in order 0,1,2 while the first caller's fetch (returning 42) is in flight;
after the schedule completes, the fetch ran once and the slot is clear. -/
theorem coalescer_single_fetch_witness :
    (coalRun (.ok 42) (coalInit Nat 3) ([0, 1, 2] ++ [0, 1, 2])).fetchCount = 1 ∧
    (coalRun (.ok 42) (coalInit Nat 3) ([0, 1, 2] ++ [0, 1, 2])).slot = none := by
  have hprocs : (coalRun (.ok 42) (coalInit Nat 3) ([0, 1, 2] ++ [0, 1, 2])).procs
      = [ProcState.done (.ok 42), ProcState.done (.ok 42),
         ProcState.done (.ok 42)] := by
    decide
  have hdone : ∀ p ∈ (coalRun (.ok 42) (coalInit Nat 3)
      ([0, 1, 2] ++ [0, 1, 2])).procs, ∃ r, p = ProcState.done r := by
    rw [hprocs]
    intro p hp
    simp only [List.mem_cons, List.not_mem_nil, or_false] at hp
    rcases hp with h | h | h <;> exact ⟨Except.ok 42, h⟩
  obtain ⟨h1, -, h3, -⟩ := coalescer_single_fetch 3 (Except.ok 42) [0, 1, 2]
    [0, 1, 2] (by decide) (by decide) hdone
  exact ⟨h1, h3⟩
